import Mathlib

/-!
Verification development for the conversational command-understanding layer
of the CRM system (`app/ai/voice_ai_manager.py`).

The Python source is shallowly embedded: pure helpers become Lean functions,
the mutable per-user context store becomes explicit state passing over an
association list keyed by user id, wall-clock time becomes an explicit `now`
parameter (in the same units as the configured TTL), and the single external
generative-AI HTTP call is modelled by an explicit outcome oracle.

Python-specific semantics are modelled explicitly:
* `str.lower()` is modelled for the ASCII and Cyrillic ranges exercised by the
  pattern tables (`lowerChar`);
* regular-expression `\w` / `\s` classes are modelled for ASCII + Cyrillic
  (`isWordChar`, `isSpaceChar`);
* Python truthiness on optional ints/strings (`if x:`) is modelled by
  `truthyNat` / `truthyStr` (0, `None` and `""` are falsy);
* `re.search` leftmost-match semantics are modelled by trying a hand-compiled
  matcher at every suffix, leftmost first (`searchAt`).
-/

set_option maxRecDepth 4000

namespace CRM

/-! ### Character and string helpers -/

/-- Python `str.lower()` restricted to the alphabets used by the pattern
tables: ASCII `A-Z`, Cyrillic `А-Я` (U+0410–U+042F, mapped by +0x20) and the
Ukrainian/Russian extras `Ё Є І Ї Ґ`. -/
def lowerChar (c : Char) : Char :=
  let n := c.toNat
  if 65 ≤ n ∧ n ≤ 90 then Char.ofNat (n + 32)            -- A-Z
  else if 0x410 ≤ n ∧ n ≤ 0x42F then Char.ofNat (n + 32) -- А-Я
  else if n = 0x401 then Char.ofNat 0x451                 -- Ё
  else if n = 0x404 then Char.ofNat 0x454                 -- Є
  else if n = 0x406 then Char.ofNat 0x456                 -- І
  else if n = 0x407 then Char.ofNat 0x457                 -- Ї
  else if n = 0x490 then Char.ofNat 0x491                 -- Ґ
  else c

/-- Python `str.lower()` over a whole string. -/
def pyLower (s : String) : String := ⟨s.data.map lowerChar⟩

/-- Whitespace class (`\s`, and the set stripped by `str.strip()`). -/
def isSpaceChar (c : Char) : Bool := c.isWhitespace

/-- ASCII digit. -/
def isDigitChar (c : Char) : Bool := c.isDigit

/-- Cyrillic block U+0400–U+04FF. -/
def isCyrChar (c : Char) : Bool := 0x400 ≤ c.toNat && c.toNat ≤ 0x4FF

/-- Regex `\w` (Unicode word character), modelled for the ASCII + Cyrillic
alphabets exercised by this module. -/
def isWordChar (c : Char) : Bool := c.isAlphanum || c == '_' || isCyrChar c

/-- `needle` starts `hay` (character-exact). -/
def startsWithL : List Char → List Char → Bool
  | [], _ => true
  | _ :: _, [] => false
  | n :: ns, h :: hs => n == h && startsWithL ns hs

/-- Python `needle in hay` substring containment on character lists. -/
def containsL (needle : List Char) : List Char → Bool
  | [] => needle.isEmpty
  | c :: cs => startsWithL needle (c :: cs) || containsL needle cs

/-- Python `needle in hay` substring containment on strings. -/
def substrB (needle hay : String) : Bool := containsL needle.data hay.data

/-- Python `str.strip()` on a character list. -/
def stripL (cs : List Char) : List Char :=
  ((cs.dropWhile isSpaceChar).reverse.dropWhile isSpaceChar).reverse

/-- Python `str.strip()` on a string. -/
def stripS (s : String) : String := ⟨stripL s.data⟩

/-- Try a matcher at every suffix, leftmost first (`re.search` semantics for
the hand-compiled patterns below). -/
def searchAt {α : Type} (m : List Char → Option α) : List Char → Option α
  | [] => m []
  | c :: cs =>
    match m (c :: cs) with
    | some r => some r
    | none => searchAt m cs

/-- First index (if any) at which `needle` occurs in `hay`. -/
def firstIndexL (needle : List Char) : List Char → Option Nat
  | [] => if needle.isEmpty then some 0 else none
  | c :: cs =>
    if startsWithL needle (c :: cs) then some 0
    else (firstIndexL needle cs).map (· + 1)

/-- Decimal value of a digit run. -/
def digitsToNat (ds : List Char) : Nat :=
  ds.foldl (fun acc c => 10 * acc + (c.toNat - 48)) 0

/-- Python truthiness of an optional int (`None` and `0` are falsy). -/
def truthyNat : Option Nat → Bool
  | some n => n ≠ 0
  | none => false

/-- Python truthiness of an optional string (`None` and `""` are falsy). -/
def truthyStr : Option String → Bool
  | some s => s ≠ ""
  | none => false

/-! ### Data classes (`Intent`, `Entities`, `Action`, `ConversationTurn`,
`UserContext`) -/

/-- `class Intent(Enum)` — all possible user intents. -/
inductive Intent where
  | create_lead | list_leads | show_lead | edit_lead | delete_lead
  | add_note | show_notes | analyze_lead | search | stats | sales
  | unknown | confirm | cancel
deriving DecidableEq, Repr, BEq

/-- The Python enum `.value` string of each intent. -/
def Intent.value : Intent → String
  | .create_lead => "create_lead"
  | .list_leads => "list_leads"
  | .show_lead => "show_lead"
  | .edit_lead => "edit_lead"
  | .delete_lead => "delete_lead"
  | .add_note => "add_note"
  | .show_notes => "show_notes"
  | .analyze_lead => "analyze_lead"
  | .search => "search"
  | .stats => "stats"
  | .sales => "sales"
  | .unknown => "unknown"
  | .confirm => "confirm"
  | .cancel => "cancel"

/-- `@dataclass Entities` — extracted entities from user input. -/
structure Entities where
  lead_id : Option Nat := none
  lead_name : Option String := none
  phone : Option String := none
  email : Option String := none
  stage : Option String := none
  source : Option String := none
  domain : Option String := none
  note_content : Option String := none
  search_query : Option String := none
deriving DecidableEq, Repr

/-- `@dataclass Action` — a user action to execute.  Confidence is a rational
in [0,1]. -/
structure Action where
  intent : Intent
  entities : Entities
  confidence : ℚ := 1/2
  requires_confirmation : Bool := false
  original_text : String := ""
deriving DecidableEq, Repr

/-- `@dataclass ConversationTurn` — single turn in conversation. -/
structure ConversationTurn where
  timestamp : Nat
  user_input : String
  action : Action
  bot_response : String
deriving DecidableEq, Repr

/-- `@dataclass UserContext` — user conversation context. -/
structure UserContext where
  user_id : Nat
  last_lead_id : Option Nat := none
  last_lead_name : Option String := none
  last_action : Option String := none
  confirmation_pending : Option Action := none
  conversation_history : List ConversationTurn := []
  state : String := "idle"
  last_seen_at : Nat
deriving DecidableEq, Repr

/-- `UserContext.add_turn` — append a turn, keep the last 10, refresh the
last-activity timestamp. -/
def UserContext.add_turn (ctx : UserContext) (turn : ConversationTurn) (now : Nat) :
    UserContext :=
  let hist := ctx.conversation_history ++ [turn]
  let hist := if hist.length > 10 then hist.drop (hist.length - 10) else hist
  { ctx with conversation_history := hist, last_seen_at := now }

/-! ### Intent detection pattern tables (`IntentDetector.PATTERNS`) -/

structure PatternData where
  keywords : List String
  verbs : List String
  phrases : List String
deriving DecidableEq, Repr

/-- `IntentDetector.PATTERNS`, in Python dict insertion order. -/
def PATTERNS : List (Intent × PatternData) :=
  [ (.create_lead,
     { keywords := ["лід", "ліда", "лідів"],
       verbs := ["додай", "додати", "потрібно", "створи", "створити", "новий", "new", "add", "create"],
       phrases := ["додай ліда", "додати ліда", "потрібно додати", "новий ліда", "new lead"] }),
    (.list_leads,
     { keywords := ["лід", "ліди", "лідів", "lead", "leads"],
       verbs := ["покажи", "показати", "список", "show", "list", "мої", "всі"],
       phrases := ["покажи ліди", "show leads", "мої ліди", "список лідів"] }),
    (.show_notes,
     { keywords := ["нотатк", "нотаток", "нотатки", "заміт", "note", "notes"],
       verbs := ["покажи", "показати", "show", "мої"],
       phrases := ["покажи нотатки", "show notes"] }),
    (.add_note,
     { keywords := ["нотатк", "нотатку", "заміт", "note"],
       verbs := ["додай", "додати", "запиши", "записати", "add", "create"],
       phrases := ["додай нотатку", "add note"] }),
    (.stats,
     { keywords := ["статистик", "звіт", "stats", "дашборд", "dashboard"],
       verbs := ["покажи", "show"],
       phrases := ["статистика", "show stats"] }),
    (.search,
     { keywords := ["знайди", "пошук", "search", "find", "шукай"],
       verbs := ["знайди", "шукай", "search", "find"],
       phrases := ["знайди", "search"] }),
    (.sales,
     { keywords := ["продаж", "sale", "sales", "pipeline", "воронк"],
       verbs := ["покажи", "show"],
       phrases := ["продажі", "sales", "pipeline"] }),
    (.analyze_lead,
     { keywords := ["гаряч", "найкращ", "best", "hot", "top", "оцін", "score", "аналіз", "analyze"],
       verbs := ["оціни", "проаналізуй", "analyze"],
       phrases := ["гарячі ліди", "hot leads", "оціни ліда"] }),
    (.edit_lead,
     { keywords := ["лід", "ліда"],
       verbs := ["редагуй", "редагувати", "зміни", "змінити", "edit", "change", "онов"],
       phrases := ["редагуй ліда", "edit lead"] }),
    (.delete_lead,
     { keywords := ["лід", "ліда", "лідів"],
       verbs := ["видали", "видалити", "delete", "remove"],
       phrases := ["видали ліда", "delete lead"] }) ]

/-- Tier-1 test: some exact phrase of `pd` occurs in the lowered text. -/
def phraseHit (pd : PatternData) (textLower : String) : Bool :=
  pd.phrases.any (fun p => substrB p textLower)

/-- Tier-2 test: some keyword and some verb of `pd` occur in the lowered
text (independently, not adjacency-checked). -/
def kwVerbHit (pd : PatternData) (textLower : String) : Bool :=
  pd.keywords.any (fun k => substrB k textLower) &&
  pd.verbs.any (fun v => substrB v textLower)

/-- Tier-3 affirmative vocabulary of `IntentDetector.detect` (the duplicated
`"так"` of the Python list is kept). -/
def affirmWordsDetect : List String :=
  ["так", "так", "yes", "підтверджую", "confirm", "ок", "окей"]

/-- Tier-3 negative vocabulary of `IntentDetector.detect`. -/
def negWordsDetect : List String := ["ні", "no", "скасуй", "cancel", "відміна"]

/-! ### Entity extraction (`IntentDetector._extract_entities`)

Each Python regex is hand-compiled to a matcher run at every suffix,
leftmost first, reproducing `re.search` semantics (including the one
backtracking point of the name pattern, noted below). -/

/-- Consume a literal (character-exact), returning the rest. -/
def matchLit (lit : List Char) : List Char → Option (List Char)
  | cs => if startsWithL lit cs then some (cs.drop lit.length) else none

/-- `лід\s*#?(\d+)` at one position. -/
def leadPat1 (cs : List Char) : Option Nat := do
  let cs ← matchLit "лід".data cs
  let cs := cs.dropWhile isSpaceChar
  let cs := match cs with
    | '#' :: rest => rest
    | _ => cs
  let ds := cs.takeWhile isDigitChar
  if ds.isEmpty then none else some (digitsToNat ds)

/-- `lead\s*#?(\d+)` at one position. -/
def leadPat2 (cs : List Char) : Option Nat := do
  let cs ← matchLit "lead".data cs
  let cs := cs.dropWhile isSpaceChar
  let cs := match cs with
    | '#' :: rest => rest
    | _ => cs
  let ds := cs.takeWhile isDigitChar
  if ds.isEmpty then none else some (digitsToNat ds)

/-- `до\s*лід[ау]\s*#?(\d+)` / `для\s*лід[ау]\s*#?(\d+)` at one position. -/
def leadPatPrep (prep : List Char) (cs : List Char) : Option Nat := do
  let cs ← matchLit prep cs
  let cs := cs.dropWhile isSpaceChar
  let cs ← matchLit "лід".data cs
  let cs ← match cs with
    | c :: rest => if c == 'а' || c == 'у' then some rest else none
    | [] => none
  let cs := cs.dropWhile isSpaceChar
  let cs := match cs with
    | '#' :: rest => rest
    | _ => cs
  let ds := cs.takeWhile isDigitChar
  if ds.isEmpty then none else some (digitsToNat ds)

/-- `#(\d+)` at one position. -/
def leadPat5 (cs : List Char) : Option Nat := do
  let cs ← matchLit ['#'] cs
  let ds := cs.takeWhile isDigitChar
  if ds.isEmpty then none else some (digitsToNat ds)

/-- Lead-id extraction: the ordered regex list of `_extract_entities`, first
pattern with a match (anywhere) wins; runs on the lowered text. -/
def extractLeadId (textLower : List Char) : Option Nat :=
  match searchAt leadPat1 textLower with
  | some n => some n
  | none =>
  match searchAt leadPat2 textLower with
  | some n => some n
  | none =>
  match searchAt (leadPatPrep "до".data) textLower with
  | some n => some n
  | none =>
  match searchAt (leadPatPrep "для".data) textLower with
  | some n => some n
  | none => searchAt leadPat5 textLower

/-- `\+?380\d{9}` at one position; returns the matched text. -/
def phonePat1 (cs : List Char) : Option (List Char) :=
  let (plus, cs1) := match cs with
    | '+' :: rest => (['+'], rest)
    | _ => (([] : List Char), cs)
  match matchLit "380".data cs1 with
  | none => none
  | some rest =>
    let ds := (rest.takeWhile isDigitChar).take 9
    if ds.length = 9 then some (plus ++ "380".data ++ ds) else none

/-- `\+?\d{10,12}` at one position (greedy up to 12); returns the match. -/
def phonePat2 (cs : List Char) : Option (List Char) :=
  let (plus, cs1) := match cs with
    | '+' :: rest => (['+'], rest)
    | _ => (([] : List Char), cs)
  let ds := cs1.takeWhile isDigitChar
  if ds.length ≥ 10 then some (plus ++ ds.take 12) else none

/-- Phone extraction (runs on the original-case text). -/
def extractPhone (text : List Char) : Option String :=
  match searchAt phonePat1 text with
  | some m => some ⟨m⟩
  | none => (searchAt phonePat2 text).map (fun m => ⟨m⟩)

/-- Character class `[\w\.-]` of the email regex. -/
def isEmailChar (c : Char) : Bool := isWordChar c || c == '.' || c == '-'

/-- Scan for the last dot (at index ≥ 1, so that `[\w\.-]+` before it is
non-empty) of the greedy run that is followed by at least one word character;
`k` counts down, considering index `k - 1` at each step. -/
def emailDomainAux (run : List Char) : Nat → Option (List Char)
  | 0 => none
  | k + 1 =>
    if h : k < run.length then
      if k ≥ 1 && run.get ⟨k, h⟩ == '.' then
        let tail := (run.drop (k + 1)).takeWhile isWordChar
        if tail.isEmpty then emailDomainAux run k
        else some (run.take (k + 1) ++ tail)
      else emailDomainAux run k
    else emailDomainAux run k

/-- Domain part `[\w\.-]+\.\w+` after the `@`: the greedy run backtracks to
the last dot followed by at least one word character. -/
def emailDomain (cs : List Char) : Option (List Char) :=
  let run := cs.takeWhile isEmailChar
  emailDomainAux run run.length

/-- `[\w\.-]+@[\w\.-]+\.\w+` at one position; returns the matched text. -/
def emailPat (cs : List Char) : Option (List Char) :=
  let localPart := cs.takeWhile isEmailChar
  if localPart.isEmpty then none
  else
    match cs.drop localPart.length with
    | '@' :: rest =>
      (emailDomain rest).map (fun d => localPart ++ '@' :: d)
    | _ => none

/-- Email extraction (original-case text). -/
def extractEmail (text : List Char) : Option String :=
  (searchAt emailPat text).map (fun m => ⟨m⟩)

/-- Character class `[А-Яа-яёЇїІіЄєA-Za-z]` under `re.IGNORECASE` (so both
cases of `ё Ї І Є` are included; `ґ/Ґ` is not in the class). -/
def isNameChar (c : Char) : Bool :=
  let n := c.toNat
  (0x410 ≤ n && n ≤ 0x42F) || (0x430 ≤ n && n ≤ 0x44F) ||
  n == 0x451 || n == 0x401 ||           -- ё Ё
  n == 0x457 || n == 0x407 ||           -- ї Ї
  n == 0x456 || n == 0x406 ||           -- і І
  n == 0x454 || n == 0x404 ||           -- є Є
  c.isAlpha

/-- Case-insensitive literal match. -/
def matchLitCI (lit : List Char) : List Char → Option (List Char)
  | cs =>
    if startsWithL (lit.map lowerChar) (cs.map lowerChar) then
      some (cs.drop lit.length)
    else none

/-- Capture group `([cls]+(?:\s+[cls]+)?)` with `[.,]?\s*` before it:
the greedy two-word capture includes the intervening whitespace. -/
def nameCapture (cs : List Char) : Option (List Char) :=
  let cs := match cs with
    | c :: rest => if c == '.' || c == ',' then rest else c :: rest
    | [] => []
  let cs := cs.dropWhile isSpaceChar
  let w1 := cs.takeWhile isNameChar
  if w1.isEmpty then none
  else
    let rest := cs.drop w1.length
    let sp := rest.takeWhile isSpaceChar
    let w2 := (rest.drop sp.length).takeWhile isNameChar
    if sp.isEmpty || w2.isEmpty then some w1 else some (w1 ++ sp ++ w2)

/-- `лід[ау]?[.,]?\s*(name)` at one position.  The optional `[ау]` is the one
live backtracking point: taking it is tried first, and if the remainder then
fails, the letter is instead captured by the name class (e.g. `"ліда"` alone
captures `"а"`). -/
def namePat1 (cs : List Char) : Option (List Char) := do
  let cs ← matchLitCI "лід".data cs
  match cs with
  | c :: rest =>
    if lowerChar c == 'а' || lowerChar c == 'у' then
      match nameCapture rest with
      | some r => some r
      | none => nameCapture (c :: rest)
    else nameCapture (c :: rest)
  | [] => none

/-- `додай\s+(?:нового\s+)?ліда[.,]?\s*(name)` at one position. -/
def namePat2 (cs : List Char) : Option (List Char) := do
  let cs ← matchLitCI "додай".data cs
  let sp := cs.takeWhile isSpaceChar
  if sp.isEmpty then none
  else
    let cs := cs.drop sp.length
    let afterOpt :=
      match matchLitCI "нового".data cs with
      | some rest =>
        let sp2 := rest.takeWhile isSpaceChar
        if sp2.isEmpty then cs else rest.drop sp2.length
      | none => cs
    match matchLitCI "ліда".data afterOpt with
    | some rest => nameCapture rest
    | none => none

/-- Name filter of `_extract_entities`: length > 2 and no command word
contained in the lowered candidate. -/
def nameOk (name : List Char) : Bool :=
  name.length > 2 &&
  !(["додай", "ліда", "номер"].any
      (fun kw => containsL kw.data (name.map lowerChar)))

/-- Display-name extraction (original-case text, `re.IGNORECASE`): as in the
source, each pattern contributes only its leftmost match, which is then
filtered; the first pattern whose leftmost match passes the filter wins. -/
def extractName (text : List Char) : Option String :=
  match searchAt namePat1 text with
  | some m =>
    let name := stripL m
    if nameOk name then some ⟨name⟩
    else
      match searchAt namePat2 text with
      | some m2 =>
        let name2 := stripL m2
        if nameOk name2 then some ⟨name2⟩ else none
      | none => none
  | none =>
    match searchAt namePat2 text with
    | some m2 =>
      let name2 := stripL m2
      if nameOk name2 then some ⟨name2⟩ else none
    | none => none

/-- Source tag extraction (lowered text). -/
def extractSource (textLower : String) : Option String :=
  if substrB "сканер" textLower || substrB "scanner" textLower then some "SCANNER"
  else if substrB "партнер" textLower || substrB "partner" textLower then some "PARTNER"
  else none

/-- Domain tag extraction (lowered text). -/
def extractDomain (textLower : String) : Option String :=
  if substrB "перший" textLower || substrB "first" textLower then some "FIRST"
  else if substrB "другий" textLower || substrB "second" textLower then some "SECOND"
  else if substrB "третій" textLower || substrB "third" textLower then some "THIRD"
  else none

/-- Remove the first occurrence of `needle` (Python `str.replace(needle, "", 1)`). -/
def removeFirstL (needle hay : List Char) : List Char :=
  match firstIndexL needle hay with
  | some i => hay.take i ++ hay.drop (i + needle.length)
  | none => hay

/-- Search-query extraction: for each verb in order, if it occurs, the rest of
the lowered text (verb removed, stripped) is the query — but only a non-empty
query stops the loop (the `break` sits under `if query:`). -/
def extractSearchQuery (textLower : List Char) : List String → Option String
  | [] => none
  | v :: vs =>
    if containsL v.data textLower then
      let query := stripL (removeFirstL v.data textLower)
      if query.isEmpty then extractSearchQuery textLower vs else some ⟨query⟩
    else extractSearchQuery textLower vs

/-- Note-content extraction: the first verb that occurs stops the loop
regardless (the `break` sits under `if verb in text_lower:`); the content is
sliced from the original-case text at the index found in the lowered text. -/
def extractNoteContent (text textLower : List Char) : List String → Option String
  | [] => none
  | v :: vs =>
    if containsL v.data textLower then
      match firstIndexL v.data textLower with
      | some i =>
        let content := stripL (text.drop (i + v.data.length))
        if content.isEmpty then none else some ⟨content⟩
      | none => none
    else extractNoteContent text textLower vs

/-- `IntentDetector._extract_entities`. -/
def extract_entities (text : String) : Entities :=
  let tl := pyLower text
  { lead_id := extractLeadId tl.data,
    lead_name := extractName text.data,
    phone := extractPhone text.data,
    email := extractEmail text.data,
    stage := none,
    source := extractSource tl,
    domain := extractDomain tl,
    note_content := extractNoteContent text.data tl.data ["додай нотатку", "запиши", "нотатка"],
    search_query := extractSearchQuery tl.data ["знайди", "шукай", "search", "find"] }

/-- Context fill of `detect`: when a context is supplied and the extracted
lead id is falsy, borrow the context's last-referenced id. -/
def fillLeadFromContext (e : Entities) (ctx : Option UserContext) : Entities :=
  match ctx with
  | some c => if truthyNat e.lead_id then e else { e with lead_id := c.last_lead_id }
  | none => e

/-- `IntentDetector.detect` — three-tier cascade: exact phrases (0.9),
keyword+verb (0.8), bare yes/no tokens (0.95), else UNKNOWN (0.3). -/
def detect (text : String) (current_context : Option UserContext) : Action :=
  let tl := pyLower text
  match PATTERNS.find? (fun p => phraseHit p.2 tl) with
  | some (intent, _) =>
    { intent := intent,
      entities := fillLeadFromContext (extract_entities text) current_context,
      confidence := 9/10,
      original_text := text }
  | none =>
  match PATTERNS.find? (fun p => kwVerbHit p.2 tl) with
  | some (intent, _) =>
    { intent := intent,
      entities := fillLeadFromContext (extract_entities text) current_context,
      confidence := 8/10,
      original_text := text }
  | none =>
  if affirmWordsDetect.any (fun w => substrB w tl) then
    { intent := .confirm, entities := {}, confidence := 19/20, original_text := text }
  else if negWordsDetect.any (fun w => substrB w tl) then
    { intent := .cancel, entities := {}, confidence := 19/20, original_text := text }
  else
    { intent := .unknown, entities := extract_entities text, confidence := 3/10,
      original_text := text }

/-! ### Quality assessment (`VoiceAIManager.assess_transcription_quality`) -/

/-- Exact rational subtraction by cross-multiplication (kernel-reducible,
unlike the `Rat.sub` of the runtime). -/
def ratSub (a b : ℚ) : ℚ := mkRat (a.num * b.den - b.num * a.den) (a.den * b.den)

/-- Python `min` on two rationals (strict order via the kernel-reducible
`Rat.blt`). -/
def pyMin (a b : ℚ) : ℚ := if Rat.blt b a then b else a

/-- Python `max` on two rationals. -/
def pyMax (a b : ℚ) : ℚ := if Rat.blt a b then b else a

/-- The structured quality result. -/
structure Quality where
  score : ℚ
  label : String
  needs_clarification : Bool
  hints : List String
deriving DecidableEq, Repr

/-- `re.search(r"(.)\1{4,}", raw)` — a run of 5 or more identical
consecutive characters exists.  The regex dot does not match a newline
(no `re.DOTALL`), so a run of newlines never matches. -/
def hasRun5 : List Char → Bool
  | c1 :: c2 :: c3 :: c4 :: c5 :: rest =>
    (c1 != '\n' && c1 == c2 && c2 == c3 && c3 == c4 && c4 == c5) ||
    hasRun5 (c2 :: c3 :: c4 :: c5 :: rest)
  | _ => false

/-- Number of maximal word-character runs (`len(re.findall(r"\w+", raw))`).
The boolean argument tracks whether the previous character was a word
character. -/
def countWordsAux : Bool → List Char → Nat
  | _, [] => 0
  | inWord, c :: cs =>
    if isWordChar c then
      (if inWord then 0 else 1) + countWordsAux true cs
    else countWordsAux false cs

def countWords (cs : List Char) : Nat := countWordsAux false cs

/-- Character allow-list of the noise check: the complement of
`[^\w\s\#\+\-\.@,:;!?іїєґІЇЄҐа-яА-Яa-zA-Z0-9]` (the letters listed
explicitly in the Python class are already covered by `\w`). -/
def isAllowedChar (c : Char) : Bool :=
  isWordChar c || isSpaceChar c ||
  c == '#' || c == '+' || c == '-' || c == '.' || c == '@' ||
  c == ',' || c == ':' || c == ';' || c == '!' || c == '?'

/-- Count of characters outside the allow-list. -/
def weirdCount (cs : List Char) : Nat := (cs.filter (fun c => !isAllowedChar c)).length

/-- `VoiceAIManager.assess_transcription_quality`.  Empty (after strip) input
returns a fixed result; otherwise the score starts at 1.0 and fixed penalties
are subtracted, clamped to [0,1]. -/
def assess_transcription_quality (text : String) : Quality :=
  let raw := stripS text
  if raw = "" then
    { score := mkRat 0 1, label := "LOW", needs_clarification := true,
      hints := ["Спробуйте говорити чіткіше", "Запишіть голосове в тихому місці"] }
  else
    let word_count := countWords raw.data
    let p1 : Bool := raw.data.length < 6
    let p2 : Bool := word_count < 2
    let p3 : Bool := Rat.blt (mkRat 1 5) (mkRat (weirdCount raw.data) (max raw.data.length 1))
    let p4 : Bool := hasRun5 raw.data
    let score : ℚ := ratSub (ratSub (ratSub (ratSub (mkRat 1 1)
      (if p1 then mkRat 4 10 else mkRat 0 1)) (if p2 then mkRat 25 100 else mkRat 0 1))
      (if p3 then mkRat 2 10 else mkRat 0 1)) (if p4 then mkRat 15 100 else mkRat 0 1)
    let hints : List String :=
      (if p1 then ["Коротке повідомлення — додайте більше контексту"] else []) ++
      (if p2 then ["Сформулюйте команду повним реченням"] else []) ++
      (if p3 then ["Багато шуму в тексті — перевірте мікрофон"] else []) ++
      (if p4 then ["Ймовірна помилка розпізнавання — повторіть команду"] else [])
    let score := pyMax (mkRat 0 1) (pyMin score (mkRat 1 1))
    let label := if !(Rat.blt score (mkRat 75 100)) then "HIGH"
      else if !(Rat.blt score (mkRat 5 10)) then "MEDIUM" else "LOW"
    { score := score, label := label,
      needs_clarification := Rat.blt score (mkRat 5 10),
      hints := hints.take 3 }

/-- Modelled from the spec (§4.3): the quality scheme as the specification
words it — start at 1.0 and subtract the cumulative penalties for every
input, with no special case for the empty string.  Used only to compare the
specified behaviour with `assess_transcription_quality`. -/
def assess_spec (text : String) : Quality :=
  let raw := stripS text
  let word_count := countWords raw.data
  let p1 : Bool := raw.data.length < 6
  let p2 : Bool := word_count < 2
  let p3 : Bool := Rat.blt (mkRat 1 5) (mkRat (weirdCount raw.data) (max raw.data.length 1))
  let p4 : Bool := hasRun5 raw.data
  let score : ℚ := ratSub (ratSub (ratSub (ratSub (mkRat 1 1)
    (if p1 then mkRat 4 10 else mkRat 0 1)) (if p2 then mkRat 25 100 else mkRat 0 1))
    (if p3 then mkRat 2 10 else mkRat 0 1)) (if p4 then mkRat 15 100 else mkRat 0 1)
  let hints : List String :=
    (if p1 then ["Коротке повідомлення — додайте більше контексту"] else []) ++
    (if p2 then ["Сформулюйте команду повним реченням"] else []) ++
    (if p3 then ["Багато шуму в тексті — перевірте мікрофон"] else []) ++
    (if p4 then ["Ймовірна помилка розпізнавання — повторіть команду"] else [])
  let score := pyMax (mkRat 0 1) (pyMin score (mkRat 1 1))
  let label := if !(Rat.blt score (mkRat 75 100)) then "HIGH"
    else if !(Rat.blt score (mkRat 5 10)) then "MEDIUM" else "LOW"
  { score := score, label := label,
    needs_clarification := Rat.blt score (mkRat 5 10),
    hints := hints.take 3 }

/-! ### The context store (`VoiceAIManager` state and context management)

The Python `_user_contexts` dict is an association list in insertion order;
`datetime.now()` is the explicit `now` parameter (same time unit as the TTL);
`ctx.last_seen_at < now - ttl` is written without truncating subtraction as
`ctx.last_seen_at + ttl < now`. -/

abbrev Store := List (Nat × UserContext)

/-- Dict lookup (first binding wins). -/
def findCtx : Store → Nat → Option UserContext
  | [], _ => none
  | p :: rest, uid => if p.1 = uid then some p.2 else findCtx rest uid

/-- Dict assignment: replace an existing binding in place, else append (dict
insertion order). -/
def storeSet (l : Store) (uid : Nat) (c : UserContext) : Store :=
  if (findCtx l uid).isSome then
    l.map (fun p => if p.1 = uid then (uid, c) else p)
  else l ++ [(uid, c)]

/-- In-place mutation of the context object bound to `uid` (Python object
aliasing: the fetched context and the stored one are the same object). -/
def modifyCtx (l : Store) (uid : Nat) (f : UserContext → UserContext) : Store :=
  l.map (fun p => if p.1 = uid then (p.1, f p.2) else p)

/-- The mutable fields of `VoiceAIManager` that the orchestrator uses. -/
structure Manager where
  openai_api_key : Option String := none
  context_ttl_minutes : Nat := 120
  user_contexts : Store := []
deriving DecidableEq, Repr

/-- A brand-new `UserContext(user_id=uid)` (dataclass defaults; the
`last_seen_at` default `datetime.now()` is the current instant). -/
def freshContext (uid now : Nat) : UserContext :=
  { user_id := uid, last_seen_at := now }

/-- `VoiceAIManager._cleanup_contexts` — drop every context whose
last-activity is strictly older than the TTL. -/
def cleanup_contexts (m : Manager) (now : Nat) : Manager :=
  { m with user_contexts :=
      m.user_contexts.filter (fun p => !(p.2.last_seen_at + m.context_ttl_minutes < now)) }

/-- `VoiceAIManager.get_context` — sweep, lazily create, touch. -/
def get_context (m : Manager) (uid now : Nat) : UserContext × Manager :=
  let m1 := cleanup_contexts m now
  let c0 := match findCtx m1.user_contexts uid with
    | some c => c
    | none => freshContext uid now
  let c := { c0 with last_seen_at := now }
  (c, { m1 with user_contexts := storeSet m1.user_contexts uid c })

/-- `VoiceAIManager.update_context_lead` — a non-empty (truthy) name also
updates the stored name. -/
def update_context_lead (m : Manager) (uid : Nat) (lead_id : Nat)
    (lead_name : Option String) (now : Nat) : Manager :=
  let g := get_context m uid now
  let ctx := { g.1 with last_lead_id := some lead_id }
  let ctx := if truthyStr lead_name then { ctx with last_lead_name := lead_name } else ctx
  { g.2 with user_contexts := storeSet g.2.user_contexts uid ctx }

/-- `VoiceAIManager.set_confirmation`. -/
def set_confirmation (m : Manager) (uid : Nat) (action : Action) (now : Nat) : Manager :=
  let g := get_context m uid now
  let ctx := { g.1 with confirmation_pending := some action, state := "awaiting_confirmation" }
  { g.2 with user_contexts := storeSet g.2.user_contexts uid ctx }

/-- `VoiceAIManager.clear_confirmation`. -/
def clear_confirmation (m : Manager) (uid now : Nat) : Manager :=
  let g := get_context m uid now
  let ctx := { g.1 with confirmation_pending := none, state := "idle" }
  { g.2 with user_contexts := storeSet g.2.user_contexts uid ctx }

/-- Back-reference tokens of `resolve_pronoun`. -/
def pronounPatterns : List String :=
  ["того ліда", "того", "його", "йому", "нього", "неї", "останнього", "останньому",
   "that lead", "that one", "the previous", "him"]

/-- `VoiceAIManager.resolve_pronoun` — returns the (unchanged) text is
omitted; the resolved id/name pair and the touched store are returned. -/
def resolve_pronoun (m : Manager) (text : String) (uid now : Nat) :
    (Option Nat × Option String) × Manager :=
  let r := get_context m uid now
  let ctx := r.1
  let tl := pyLower text
  if pronounPatterns.any (fun p => substrB p tl) && truthyNat ctx.last_lead_id then
    ((ctx.last_lead_id, ctx.last_lead_name), r.2)
  else ((none, none), r.2)

/-! ### Responses and the orchestrator (`process_text` and friends) -/

/-- The `action` key of a returned dict: a full `Action` object, a bare
`Intent` enum member, or absent. -/
inductive ActionOut where
  | nothing
  | act (a : Action)
  | intentOnly (i : Intent)
deriving DecidableEq, Repr

/-- The structured per-turn result dict.  Keys absent in a given Python
branch are `none` / `[]` here (`dict.get` semantics in consumers). -/
structure PTResult where
  success : Bool := true
  text : String := ""
  actionOut : ActionOut := .nothing
  response : String := ""
  response_type : Option String := none
  keyboard : Option String := none
  followup_hint : Option String := none
  suggestions : List String := []
  needs_confirmation : Bool := false
deriving DecidableEq, Repr

/-- Outcome of the single generative-AI HTTP call of `_ai_fallback`:
`ok` is a 200 response with a parsed message, `fail` covers timeout,
non-success status and any raised exception. -/
inductive AIOutcome where
  | ok (response : String)
  | fail
deriving DecidableEq, Repr

/-- `VoiceAIManager._needs_confirmation`. -/
def needs_confirmation_check (action : Action) : Bool :=
  [Intent.create_lead, Intent.delete_lead, Intent.edit_lead].contains action.intent

/-- Python `x or '—'` on an optional string field. -/
def orDash : Option String → String
  | some s => if s = "" then "—" else s
  | none => "—"

/-- Python `x or 'MANUAL'` on the source field. -/
def orManual : Option String → String
  | some s => if s = "" then "MANUAL" else s
  | none => "MANUAL"

/-- Python f-string interpolation of an optional int (`None` prints as
`"None"`). -/
def idStr : Option Nat → String
  | some n => toString n
  | none => "None"

/-- Python `lead_id or '—'` (0 and `None` both render as the dash). -/
def orDashNat : Option Nat → String
  | some n => if n = 0 then "—" else toString n
  | none => "—"

/-- Python f-string interpolation of an optional string (`None` prints as
`"None"`). -/
def strOrNone : Option String → String
  | some s => s
  | none => "None"

/-- `VoiceAIManager._build_confirmation_message` (pure: the `user_id`
parameter is unused in the source). -/
def build_confirmation_message (action : Action) : PTResult :=
  let entities := action.entities
  let response :=
    if action.intent = .create_lead then
      "📋 <b>ПІДТВЕРДЖЕННЯ</b>\n\nСтворити ліда?\n\n👤 <b>Ім\x27я:</b> " ++
      orDash entities.lead_name ++ "\n📞 <b>Телефон:</b> " ++ orDash entities.phone ++
      "\n📧 <b>Email:</b> " ++ orDash entities.email ++ "\n📡 <b>Джерело:</b> " ++
      orManual entities.source ++
      "\n\n<i>Напишіть \x27так\x27 для підтвердження або \x27ні\x27 для скасування.</i>"
    else if action.intent = .delete_lead then
      "⚠️ <b>ВИДАЛЕННЯ ЛІДА #" ++ idStr entities.lead_id ++
      "</b>\n\nЦю дію неможливо відновити!\n\n<i>Напишіть \x27так\x27 для підтвердження або \x27ні\x27 для скасування.</i>"
    else if action.intent = .edit_lead then
      "✏️ <b>ПІДТВЕРДЖЕННЯ ОНОВЛЕННЯ</b>\n\nОновити ліда #" ++
      orDashNat entities.lead_id ++
      "?\n\n<i>Напишіть \x27так\x27 для підтвердження або \x27ні\x27 для скасування.</i>"
    else "Підтвердіть вашу дію: так/ні"
  { success := true, text := action.original_text, actionOut := .act action,
    response := response, needs_confirmation := true }

/-- The intermediate response dict built by `_build_action_response`. -/
structure BResp where
  type : String
  text : String
  suggestions : List String := []
  followup_hint : Option String := none
deriving DecidableEq, Repr

/-- `VoiceAIManager._build_action_response` (pure: its own `get_context`
call is passed in as `ctx`). -/
def build_action_response (action : Action) (ctx : UserContext) (confirmed : Bool) : BResp :=
  if action.intent = .create_lead then
    if confirmed then
      { type := "lead_created",
        text := "✅ <b>Лід створений!</b>\n\nІм\x27я: " ++ orDash action.entities.lead_name ++
          "\nТелефон: " ++ orDash action.entities.phone }
    else
      { type := "confirmation_needed", text := "Підтвердіть створення ліда: так/ні" }
  else if action.intent = .list_leads then
    { type := "leads_list", text := "📋 <b>Ваші ліди:</b>\n\nПоказую список...",
      suggestions := ["покажи нотатки", "знайди гарячі", "статистика"] }
  else if action.intent = .stats then
    { type := "stats", text := "📊 <b>Статистика:</b>\n\nЗавантажую...",
      suggestions := ["гарячі ліди", "продажі", "знайди кваліфіковані"] }
  else if action.intent = .analyze_lead then
    let lead_id := if truthyNat action.entities.lead_id then action.entities.lead_id
      else ctx.last_lead_id
    if truthyNat lead_id then
      { type := "analysis",
        text := "🤖 <b>Аналіз ліда #" ++ idStr lead_id ++ "</b>\n\nЗавантажую...",
        followup_hint := some "Після аналізу можу запропонувати наступний крок: nurture або transfer." }
    else { type := "error", text := "Вкажіть ID ліда для аналізу." }
  else if action.intent = .search then
    { type := "search_results",
      text := "🔍 <b>Результати пошуку:</b> " ++ strOrNone action.entities.search_query ++
        "\n\nШукаю..." }
  else if action.intent = .show_notes then
    { type := "notes_list", text := "📝 <b>Нотатки:</b>\n\nПоказую..." }
  else if action.intent = .add_note then
    let lead_id := if truthyNat action.entities.lead_id then action.entities.lead_id
      else ctx.last_lead_id
    if truthyNat lead_id && truthyStr action.entities.note_content then
      { type := "note_added",
        text := "📝 Нотатка для ліда #" ++ idStr lead_id ++ ":\n" ++
          strOrNone action.entities.note_content }
    else { type := "error", text := "Вкажіть ліда та текст нотатки." }
  else if action.intent = .sales then
    { type := "sales_pipeline", text := "💰 <b>Продажі:</b>\n\nПоказую воронку..." }
  else
    { type := "text", text := "Дію \x27" ++ action.intent.value ++ "\x27 виконано." }

/-- `VoiceAIManager._ai_fallback`.  With no (truthy) credential the fixed
clarifying prompt is returned without consulting the backend; otherwise the
oracle's `ok` text is relayed and any failure becomes the fixed retry
response.  The store is never touched. -/
def ai_fallback (m : Manager) (oracle : AIOutcome) (text : String) : PTResult × Manager :=
  if !truthyStr m.openai_api_key then
    ({ success := true, text := text, actionOut := .intentOnly .unknown,
       response := "Не зовсім зрозумів запит. Уточніть: що саме зробити з лідом?",
       followup_hint := some "Наприклад: \x27покажи ліди\x27, \x27додай ліда\x27, \x27додай нотатку до ліда #12\x27.",
       needs_confirmation := false }, m)
  else
    match oracle with
    | .ok ai_response =>
      ({ success := true, text := text, actionOut := .intentOnly .unknown,
         response := ai_response, needs_confirmation := false }, m)
    | .fail =>
      ({ success := true, text := text, actionOut := .intentOnly .unknown,
         response := "Не вдалося обробити запит. Спробуйте ще раз.",
         needs_confirmation := false }, m)

/-- `VoiceAIManager._execute_action`. -/
def execute_action (m : Manager) (now : Nat) (oracle : AIOutcome) (action : Action)
    (uid : Nat) (confirmed : Bool) : PTResult × Manager :=
  let g := get_context m uid now
  let m1 := g.2
  let m2 := if confirmed then clear_confirmation m1 uid now else m1
  if action.intent = .unknown then
    ai_fallback m2 oracle action.original_text
  else
    let g2 := get_context m2 uid now  -- `_build_action_response`'s own fetch
    let resp := build_action_response action g2.1 confirmed
    let m3 := g2.2
    let m4 := if truthyNat action.entities.lead_id then
        update_context_lead m3 uid (action.entities.lead_id.getD 0) none now
      else m3
    let turn : ConversationTurn :=
      { timestamp := now, user_input := action.original_text, action := action,
        bot_response := resp.text }
    let m5 := { m4 with user_contexts := modifyCtx m4.user_contexts uid (fun c => c.add_turn turn now) }
    ({ success := true, text := action.original_text, actionOut := .act action,
       response := resp.text, response_type := some resp.type, keyboard := none,
       followup_hint := resp.followup_hint, suggestions := resp.suggestions,
       needs_confirmation := false }, m5)

/-- Affirmative vocabulary of the confirmation branch of `process_text`. -/
def affirmWordsOrch : List String := ["так", "yes", "підтверджую", "confirm", "ок"]

/-- Negative vocabulary of the confirmation branch of `process_text`
(note: `"відміна"` of tier 3 is absent here). -/
def negWordsOrch : List String := ["ні", "no", "скасуй", "cancel"]

/-- Lines 592–593 of the source: adopt the back-reference id when the
detected action has none (Python truthiness on both sides). -/
def adopt_rid (action : Action) (rid : Option Nat) : Action :=
  if truthyNat rid && !truthyNat action.entities.lead_id then
    { action with entities := { action.entities with lead_id := rid } }
  else action

/-- Lines 595–606 of the source: update the context's last lead from the
action's id, then either store the action as pending and return the
confirmation prompt, or execute directly. -/
def confirmation_gate (m : Manager) (now : Nat) (oracle : AIOutcome) (uid : Nat)
    (action : Action) : PTResult × Manager :=
  let m1 := if truthyNat action.entities.lead_id then
      update_context_lead m uid (action.entities.lead_id.getD 0) none now
    else m
  if needs_confirmation_check action then
    (build_confirmation_message action, set_confirmation m1 uid action now)
  else execute_action m1 now oracle action uid false

/-- The fall-through tail of `process_text`: detect, adopt the resolved
back-reference id, then the confirmation gate.  `context` and `rid` are the
values `process_text` computed. -/
def process_fresh (m : Manager) (now : Nat) (oracle : AIOutcome) (text : String)
    (uid : Nat) (context : UserContext) (rid : Option Nat) : PTResult × Manager :=
  confirmation_gate m now oracle uid (adopt_rid (detect text (some context)) rid)

/-- `VoiceAIManager.process_text`. -/
def process_text (m : Manager) (now : Nat) (oracle : AIOutcome) (text : String)
    (uid : Nat) : PTResult × Manager :=
  let g := get_context m uid now
  let context := g.1
  let r := resolve_pronoun g.2 text uid now
  let m2 := r.2
  let rid := r.1.1
  if context.state = "awaiting_confirmation" then
    match context.confirmation_pending with
    | some pending =>
      let tl := pyLower text
      if affirmWordsOrch.any (fun w => substrB w tl) then
        execute_action m2 now oracle pending uid true
      else if negWordsOrch.any (fun w => substrB w tl) then
        let m3 := clear_confirmation m2 uid now
        ({ success := true, text := text, actionOut := .intentOnly .cancel,
           response := "❌ Скасовано.", needs_confirmation := false }, m3)
      else process_fresh m2 now oracle text uid context rid
    | none => process_fresh m2 now oracle text uid context rid
  else process_fresh m2 now oracle text uid context rid

/-- The action the orchestrator computes for a fresh (non-confirmation)
utterance: `detect` plus adoption of the back-reference id.  Mirrors lines
589–593 of the source and is used to phrase hypotheses about "the detected
intent". -/
def detected_action (m : Manager) (now : Nat) (text : String) (uid : Nat) : Action :=
  let g := get_context m uid now
  let r := resolve_pronoun g.2 text uid now
  adopt_rid (detect text (some g.1)) r.1.1

/-! ### Observation helpers over the store -/

/-- The pending action of `uid`'s context, if the context exists. -/
def pendingOf (m : Manager) (uid : Nat) : Option (Option Action) :=
  (findCtx m.user_contexts uid).map UserContext.confirmation_pending

/-- The state tag of `uid`'s context, if the context exists. -/
def stateOf (m : Manager) (uid : Nat) : Option String :=
  (findCtx m.user_contexts uid).map UserContext.state

/-- The turn history of `uid`'s context, if the context exists. -/
def historyOf (m : Manager) (uid : Nat) : Option (List ConversationTurn) :=
  (findCtx m.user_contexts uid).map UserContext.conversation_history

/-! ### Association-list lemmas -/

theorem findCtx_mem {l : Store} {uid : Nat} {c : UserContext}
    (h : findCtx l uid = some c) : (uid, c) ∈ l := by
  induction l with
  | nil => simp [findCtx] at h
  | cons p rest ih =>
    by_cases hp : p.1 = uid
    · simp only [findCtx, hp, if_pos] at h
      have : p = (uid, c) := by
        obtain ⟨a, b⟩ := p
        simp only at hp
        simp only [Option.some_inj] at h
        simp [hp, ← h]
      exact this ▸ List.mem_cons_self p rest
    · simp only [findCtx, hp, if_neg, not_false_iff] at h
      exact List.mem_cons_of_mem _ (ih h)

theorem findCtx_replace_self {l : Store} {uid : Nat} (c : UserContext)
    (h : (findCtx l uid).isSome) :
    findCtx (l.map (fun p => if p.1 = uid then (uid, c) else p)) uid = some c := by
  induction l with
  | nil => simp [findCtx] at h
  | cons p rest ih =>
    by_cases hp : p.1 = uid
    · simp [findCtx, hp]
    · simp only [findCtx, hp, if_neg, not_false_iff] at h
      simp [findCtx, hp, ih h]

theorem findCtx_replace_ne {l : Store} {uid uid' : Nat} (c : UserContext)
    (h : uid' ≠ uid) :
    findCtx (l.map (fun p => if p.1 = uid then (uid, c) else p)) uid' =
      findCtx l uid' := by
  induction l with
  | nil => simp [findCtx]
  | cons p rest ih =>
    by_cases hp : p.1 = uid
    · have h1 : ¬ ((uid, c).1 = uid') := by simpa using Ne.symm h
      have h2 : ¬ (p.1 = uid') := by rw [hp]; simpa using Ne.symm h
      simp only [List.map_cons, hp, if_pos, findCtx, h1, h2, if_neg, not_false_iff]
      exact ih
    · simp only [List.map_cons, hp, if_neg, not_false_iff, findCtx]
      by_cases hp' : p.1 = uid'
      · simp [hp']
      · simp only [hp', if_neg, not_false_iff]
        exact ih

theorem findCtx_append_none {l l2 : Store} {uid : Nat}
    (h : findCtx l uid = none) : findCtx (l ++ l2) uid = findCtx l2 uid := by
  induction l with
  | nil => simp
  | cons p rest ih =>
    by_cases hp : p.1 = uid
    · simp [findCtx, hp] at h
    · simp only [findCtx, hp, if_neg, not_false_iff] at h
      simpa [findCtx, hp] using ih h

theorem findCtx_storeSet_self (l : Store) (uid : Nat) (c : UserContext) :
    findCtx (storeSet l uid c) uid = some c := by
  unfold storeSet
  by_cases h : (findCtx l uid).isSome
  · simp only [h, if_pos]
    exact findCtx_replace_self c h
  · rw [if_neg h]
    rw [findCtx_append_none (Option.not_isSome_iff_eq_none.mp h)]
    simp [findCtx]

theorem findCtx_append_single_ne {uid uid' : Nat} (c : UserContext)
    (h : uid' ≠ uid) :
    ∀ l : Store, findCtx (l ++ [(uid, c)]) uid' = findCtx l uid'
  | [] => by
    simp only [List.nil_append, findCtx]
    rw [if_neg (by simpa using Ne.symm h)]
  | p :: rest => by
    by_cases hp : p.1 = uid'
    · simp [findCtx, hp]
    · simp only [List.cons_append, findCtx, hp, if_neg, not_false_iff]
      exact findCtx_append_single_ne c h rest

theorem findCtx_storeSet_ne {l : Store} {uid uid' : Nat} (c : UserContext)
    (h : uid' ≠ uid) : findCtx (storeSet l uid c) uid' = findCtx l uid' := by
  unfold storeSet
  by_cases hs : (findCtx l uid).isSome
  · simp only [hs, if_pos]
    exact findCtx_replace_ne c h
  · rw [if_neg hs]
    exact findCtx_append_single_ne c h l

theorem findCtx_modifyCtx_ne {l : Store} {uid uid' : Nat} (f : UserContext → UserContext)
    (h : uid' ≠ uid) : findCtx (modifyCtx l uid f) uid' = findCtx l uid' := by
  induction l with
  | nil => simp [modifyCtx, findCtx]
  | cons p rest ih =>
    by_cases hp : p.1 = uid
    · have h2 : ¬ (uid = uid') := fun hc => h hc.symm
      simp only [modifyCtx, List.map_cons, hp, if_pos, findCtx]
      rw [if_neg h2, if_neg h2]
      exact ih
    · simp only [modifyCtx, List.map_cons, hp, if_neg, not_false_iff, findCtx]
      by_cases hp' : p.1 = uid'
      · simp [hp']
      · simp only [hp', if_neg, not_false_iff]
        exact ih

theorem findCtx_modifyCtx_self (l : Store) (uid : Nat) (f : UserContext → UserContext) :
    findCtx (modifyCtx l uid f) uid = (findCtx l uid).map f := by
  induction l with
  | nil => simp [modifyCtx, findCtx]
  | cons p rest ih =>
    by_cases hp : p.1 = uid
    · simp [modifyCtx, findCtx, hp]
    · simp only [modifyCtx, List.map_cons, hp, if_neg, not_false_iff, findCtx]
      exact ih

theorem mem_storeSet {l : Store} {uid : Nat} {c : UserContext} {q : Nat × UserContext}
    (h : q ∈ storeSet l uid c) : q ∈ l ∨ q = (uid, c) := by
  unfold storeSet at h
  by_cases hs : (findCtx l uid).isSome
  · simp only [hs, if_pos] at h
    rcases List.mem_map.mp h with ⟨p, hp, he⟩
    by_cases hq : p.1 = uid
    · right; simp only [hq, if_pos] at he; exact he.symm
    · left; simp only [hq, if_neg, not_false_iff] at he; exact he ▸ hp
  · rw [if_neg hs] at h
    rcases List.mem_append.mp h with h1 | h1
    · exact Or.inl h1
    · right; simpa using h1

theorem mem_modifyCtx {l : Store} {uid : Nat} {f : UserContext → UserContext}
    {q : Nat × UserContext} (h : q ∈ modifyCtx l uid f) :
    q ∈ l ∨ ∃ p ∈ l, p.1 = uid ∧ q = (uid, f p.2) := by
  rcases List.mem_map.mp h with ⟨p, hp, he⟩
  by_cases hq : p.1 = uid
  · right
    refine ⟨p, hp, hq, ?_⟩
    simp only [hq, if_pos] at he
    exact he.symm
  · left
    simp only [hq, if_neg, not_false_iff] at he
    exact he ▸ hp

theorem findCtx_filter_none_of_all {l : Store} {uid : Nat} {p : Nat × UserContext → Bool}
    (h : ∀ c, (uid, c) ∈ l → p (uid, c) = false) :
    findCtx (l.filter p) uid = none := by
  induction l with
  | nil => simp [findCtx]
  | cons q rest ih =>
    have htail := ih (fun c hc => h c (List.mem_cons_of_mem _ hc))
    by_cases hq : q.1 = uid
    · have hq' : q = (uid, q.2) := by obtain ⟨a, b⟩ := q; simp only at hq; simp [hq]
      have hpv := h q.2 (hq' ▸ List.mem_cons_self q rest)
      rw [List.filter_cons, hq']
      rw [hq'] at hpv
      simp only [hpv, Bool.false_eq_true, if_neg, not_false_iff]
      exact htail
    · rw [List.filter_cons]
      by_cases hp : p q = true
      · simp only [hp, if_pos, findCtx, hq, if_neg, not_false_iff]
        exact htail
      · simp only [hp, if_neg, not_false_iff]
        exact htail

theorem findCtx_none_filter {l : Store} {uid : Nat} {p : Nat × UserContext → Bool}
    (h : findCtx l uid = none) : findCtx (l.filter p) uid = none := by
  apply findCtx_filter_none_of_all
  intro c hc
  exfalso
  induction l with
  | nil => simp at hc
  | cons q rest ih =>
    by_cases hq : q.1 = uid
    · simp [findCtx, hq] at h
    · simp only [findCtx, hq, if_neg, not_false_iff] at h
      rcases List.mem_cons.mp hc with h1 | h1
      · exact hq (by rw [← h1])
      · exact ih h h1

/-! ### The pending/state invariant (claim about §3 of the spec) -/

/-- A context's pending-confirmation action is present iff its state tag is
`awaiting_confirmation`. -/
def Inv (c : UserContext) : Prop :=
  c.confirmation_pending.isSome = true ↔ c.state = "awaiting_confirmation"

instance (c : UserContext) : Decidable (Inv c) := by unfold Inv; infer_instance

/-- Every context of a store satisfies the invariant. -/
def InvL (l : Store) : Prop := ∀ p ∈ l, Inv p.2

/-- Every context managed by the manager satisfies the invariant. -/
def InvStore (m : Manager) : Prop := InvL m.user_contexts

instance (l : Store) : Decidable (InvL l) := by unfold InvL; infer_instance

instance (m : Manager) : Decidable (InvStore m) := by unfold InvStore; infer_instance

theorem Inv_fresh (uid now : Nat) : Inv (freshContext uid now) :=
  iff_of_false (by simp [freshContext]) (by simp only [freshContext]; decide)

theorem Inv_touch {c : UserContext} (now : Nat) (h : Inv c) :
    Inv { c with last_seen_at := now } := h

theorem Inv_set_lead {c : UserContext} (i : Option Nat) (h : Inv c) :
    Inv { c with last_lead_id := i } := h

theorem Inv_set_name {c : UserContext} (s : Option String) (h : Inv c) :
    Inv { c with last_lead_name := s } := h

theorem Inv_add_turn {c : UserContext} (t : ConversationTurn) (now : Nat) (h : Inv c) :
    Inv (c.add_turn t now) := h

theorem Inv_set_conf (c : UserContext) (a : Action) :
    Inv { c with confirmation_pending := some a, state := "awaiting_confirmation" } :=
  iff_of_true rfl rfl

theorem Inv_clear_conf (c : UserContext) :
    Inv { c with confirmation_pending := none, state := "idle" } :=
  iff_of_false (by simp [Inv]) (by simp [Inv])

theorem InvL_storeSet {l : Store} {uid : Nat} {c : UserContext}
    (hl : InvL l) (hc : Inv c) : InvL (storeSet l uid c) := by
  intro p hp
  rcases mem_storeSet hp with h1 | h1
  · exact hl p h1
  · rw [h1]; exact hc

theorem InvL_modifyCtx {l : Store} {uid : Nat} {f : UserContext → UserContext}
    (hl : InvL l) (hf : ∀ c, Inv c → Inv (f c)) : InvL (modifyCtx l uid f) := by
  intro p hp
  rcases mem_modifyCtx hp with h1 | ⟨q, hq, _, he⟩
  · exact hl p h1
  · rw [he]; exact hf q.2 (hl q hq)

theorem InvStore_cleanup {m : Manager} (now : Nat) (h : InvStore m) :
    InvStore (cleanup_contexts m now) := by
  intro p hp
  exact h p (List.mem_filter.mp hp).1

theorem Inv_get_context_fst {m : Manager} (uid now : Nat) (h : InvStore m) :
    Inv (get_context m uid now).1 := by
  have hclean := InvStore_cleanup now h
  unfold get_context
  simp only
  split
  case _ c hf => exact Inv_touch now (hclean _ (findCtx_mem hf))
  case _ hf => exact Inv_touch now (Inv_fresh uid now)

theorem InvStore_get_context {m : Manager} (uid now : Nat) (h : InvStore m) :
    InvStore (get_context m uid now).2 := by
  have hc := Inv_get_context_fst uid now h
  have hclean := InvStore_cleanup now h
  have : (get_context m uid now).2.user_contexts =
      storeSet (cleanup_contexts m now).user_contexts uid (get_context m uid now).1 := rfl
  unfold InvStore
  rw [this]
  exact InvL_storeSet hclean hc

theorem InvStore_update_context_lead {m : Manager} (uid lead : Nat)
    (name : Option String) (now : Nat) (h : InvStore m) :
    InvStore (update_context_lead m uid lead name now) := by
  have hg := InvStore_get_context uid now h
  have hc := Inv_get_context_fst uid now h
  unfold InvStore update_context_lead
  apply InvL_storeSet hg
  by_cases ht : truthyStr name = true
  · simp only [ht, if_pos]
    exact hc
  · rw [if_neg ht]
    exact hc

theorem InvStore_set_confirmation {m : Manager} (uid : Nat) (a : Action) (now : Nat)
    (h : InvStore m) : InvStore (set_confirmation m uid a now) := by
  have hg := InvStore_get_context uid now h
  unfold InvStore set_confirmation
  exact InvL_storeSet hg (Inv_set_conf _ a)

theorem InvStore_clear_confirmation {m : Manager} (uid now : Nat)
    (h : InvStore m) : InvStore (clear_confirmation m uid now) := by
  have hg := InvStore_get_context uid now h
  unfold InvStore clear_confirmation
  exact InvL_storeSet hg (Inv_clear_conf _)

theorem InvStore_resolve_pronoun {m : Manager} (text : String) (uid now : Nat)
    (h : InvStore m) : InvStore (resolve_pronoun m text uid now).2 := by
  have hg := InvStore_get_context uid now h
  unfold resolve_pronoun
  simp only
  split <;> exact hg

theorem InvStore_ai_fallback {m : Manager} (oracle : AIOutcome) (text : String)
    (h : InvStore m) : InvStore (ai_fallback m oracle text).2 := by
  unfold ai_fallback
  split
  · exact h
  · split <;> exact h

theorem InvStore_execute_action {m : Manager} (now : Nat) (oracle : AIOutcome)
    (a : Action) (uid : Nat) (confirmed : Bool) (h : InvStore m) :
    InvStore (execute_action m now oracle a uid confirmed).2 := by
  have h1 := InvStore_get_context uid now h
  have h2 : InvStore (if confirmed then
      clear_confirmation (get_context m uid now).2 uid now else (get_context m uid now).2) := by
    by_cases hc : confirmed = true
    · simp only [hc, if_pos]; exact InvStore_clear_confirmation uid now h1
    · rw [if_neg hc]; exact h1
  unfold execute_action
  simp only
  split
  · exact InvStore_ai_fallback oracle a.original_text h2
  · set m2 := if confirmed then
      clear_confirmation (get_context m uid now).2 uid now else (get_context m uid now).2 with hm2
    have h3 := InvStore_get_context uid now h2
    have h4 : InvStore (if truthyNat a.entities.lead_id then
        update_context_lead (get_context m2 uid now).2 uid (a.entities.lead_id.getD 0) none now
      else (get_context m2 uid now).2) := by
      by_cases ht : truthyNat a.entities.lead_id = true
      · simp only [ht, if_pos]
        exact InvStore_update_context_lead uid _ none now h3
      · rw [if_neg ht]; exact h3
    unfold InvStore
    simp only
    apply InvL_modifyCtx
    · exact h4
    · intro c hc
      exact Inv_add_turn _ now hc

theorem InvStore_confirmation_gate {m : Manager} (now : Nat) (oracle : AIOutcome)
    (uid : Nat) (a : Action) (h : InvStore m) :
    InvStore (confirmation_gate m now oracle uid a).2 := by
  have hup : InvStore (if truthyNat a.entities.lead_id then
      update_context_lead m uid (a.entities.lead_id.getD 0) none now else m) := by
    by_cases ht : truthyNat a.entities.lead_id = true
    · simp only [ht, if_pos]
      exact InvStore_update_context_lead uid _ none now h
    · rw [if_neg ht]; exact h
  unfold confirmation_gate
  simp only
  by_cases hn : needs_confirmation_check a = true
  · simp only [hn, if_pos]
    exact InvStore_set_confirmation uid a now hup
  · rw [if_neg hn]
    exact InvStore_execute_action now oracle a uid false hup

theorem InvStore_process_fresh {m : Manager} (now : Nat) (oracle : AIOutcome)
    (text : String) (uid : Nat) (context : UserContext) (rid : Option Nat)
    (h : InvStore m) :
    InvStore (process_fresh m now oracle text uid context rid).2 :=
  InvStore_confirmation_gate now oracle uid _ h

theorem InvStore_process_text {m : Manager} (now : Nat) (oracle : AIOutcome)
    (text : String) (uid : Nat) (h : InvStore m) :
    InvStore (process_text m now oracle text uid).2 := by
  have h1 := InvStore_get_context uid now h
  have h2 := InvStore_resolve_pronoun text uid now h1
  unfold process_text
  simp only
  split
  · split
    · split
      · exact InvStore_execute_action now oracle _ uid true h2
      · split
        · exact InvStore_clear_confirmation uid now h2
        · exact InvStore_process_fresh now oracle text uid _ _ h2
    · exact InvStore_process_fresh now oracle text uid _ _ h2
  · exact InvStore_process_fresh now oracle text uid _ _ h2

theorem pendingOf_set_confirmation (m : Manager) (uid : Nat) (a : Action) (now : Nat) :
    pendingOf (set_confirmation m uid a now) uid = some (some a) := by
  unfold pendingOf set_confirmation
  dsimp only
  rw [findCtx_storeSet_self]
  rfl

theorem stateOf_set_confirmation (m : Manager) (uid : Nat) (a : Action) (now : Nat) :
    stateOf (set_confirmation m uid a now) uid = some "awaiting_confirmation" := by
  unfold stateOf set_confirmation
  dsimp only
  rw [findCtx_storeSet_self]
  rfl

theorem pendingOf_clear_confirmation (m : Manager) (uid now : Nat) :
    pendingOf (clear_confirmation m uid now) uid = some none := by
  unfold pendingOf clear_confirmation
  dsimp only
  rw [findCtx_storeSet_self]
  rfl

theorem stateOf_clear_confirmation (m : Manager) (uid now : Nat) :
    stateOf (clear_confirmation m uid now) uid = some "idle" := by
  unfold stateOf clear_confirmation
  dsimp only
  rw [findCtx_storeSet_self]
  rfl

/-- **C1.** For every store satisfying the pending/state invariant, the
invariant is preserved by every public operation (`get_context`,
`update_context_lead`, `set_confirmation`, `clear_confirmation`,
`process_text`); a freshly created context starts with no pending action
and state `"idle"`; `set_confirmation` sets the pending action and the
`awaiting_confirmation` state together, and `clear_confirmation` resets
both together. -/
theorem pending_iff_awaiting_invariant (m : Manager) (uid now : Nat)
    (oracle : AIOutcome) (text : String) (lead : Nat) (name : Option String)
    (a : Action) (h : InvStore m) :
    (freshContext uid now).confirmation_pending = none ∧
    (freshContext uid now).state = "idle" ∧
    Inv (get_context m uid now).1 ∧
    InvStore (get_context m uid now).2 ∧
    InvStore (update_context_lead m uid lead name now) ∧
    InvStore (set_confirmation m uid a now) ∧
    pendingOf (set_confirmation m uid a now) uid = some (some a) ∧
    stateOf (set_confirmation m uid a now) uid = some "awaiting_confirmation" ∧
    InvStore (clear_confirmation m uid now) ∧
    pendingOf (clear_confirmation m uid now) uid = some none ∧
    stateOf (clear_confirmation m uid now) uid = some "idle" ∧
    InvStore (process_text m now oracle text uid).2 :=
  ⟨rfl, rfl,
   Inv_get_context_fst uid now h,
   InvStore_get_context uid now h,
   InvStore_update_context_lead uid lead name now h,
   InvStore_set_confirmation uid a now h,
   pendingOf_set_confirmation m uid a now,
   stateOf_set_confirmation m uid a now,
   InvStore_clear_confirmation uid now h,
   pendingOf_clear_confirmation m uid now,
   stateOf_clear_confirmation m uid now,
   InvStore_process_text now oracle text uid h⟩

/-- Witness for C1 at the empty manager, a concrete delete action and the
input `"yes"`. -/
theorem pending_iff_awaiting_invariant_witness :
    InvStore { : Manager} ∧
    InvStore (process_text { : Manager} 0 AIOutcome.fail "yes" 1).2 :=
  ⟨by decide,
   (pending_iff_awaiting_invariant { : Manager} 1 0 AIOutcome.fail "yes" 5 none
      { intent := Intent.delete_lead, entities := {}, original_text := "x" }
      (by decide)).2.2.2.2.2.2.2.2.2.2.2⟩

/-! ### Shape lemmas for `process_text` -/

theorem process_text_eq_fresh (m : Manager) (now : Nat) (oracle : AIOutcome)
    (text : String) (uid : Nat)
    (h : ¬((get_context m uid now).1.state = "awaiting_confirmation" ∧
           (get_context m uid now).1.confirmation_pending.isSome = true)) :
    process_text m now oracle text uid =
      process_fresh (resolve_pronoun (get_context m uid now).2 text uid now).2
        now oracle text uid (get_context m uid now).1
        (resolve_pronoun (get_context m uid now).2 text uid now).1.1 := by
  unfold process_text
  dsimp only
  by_cases hst : (get_context m uid now).1.state = "awaiting_confirmation"
  · rw [if_pos hst]
    cases hp : (get_context m uid now).1.confirmation_pending with
    | some a => exact absurd ⟨hst, by rw [hp]; rfl⟩ h
    | none => rfl
  · rw [if_neg hst]

theorem process_text_awaiting_affirm (m : Manager) (now : Nat) (oracle : AIOutcome)
    (text : String) (uid : Nat) {a : Action}
    (hst : (get_context m uid now).1.state = "awaiting_confirmation")
    (hp : (get_context m uid now).1.confirmation_pending = some a)
    (haff : affirmWordsOrch.any (fun w => substrB w (pyLower text)) = true) :
    process_text m now oracle text uid =
      execute_action (resolve_pronoun (get_context m uid now).2 text uid now).2
        now oracle a uid true := by
  unfold process_text
  dsimp only
  rw [if_pos hst, hp]
  dsimp only
  rw [if_pos haff]

theorem process_text_awaiting_neg (m : Manager) (now : Nat) (oracle : AIOutcome)
    (text : String) (uid : Nat) {a : Action}
    (hst : (get_context m uid now).1.state = "awaiting_confirmation")
    (hp : (get_context m uid now).1.confirmation_pending = some a)
    (haff : affirmWordsOrch.any (fun w => substrB w (pyLower text)) = false)
    (hneg : negWordsOrch.any (fun w => substrB w (pyLower text)) = true) :
    process_text m now oracle text uid =
      ({ success := true, text := text, actionOut := ActionOut.intentOnly Intent.cancel,
         response := "❌ Скасовано.", needs_confirmation := false },
       clear_confirmation (resolve_pronoun (get_context m uid now).2 text uid now).2
         uid now) := by
  unfold process_text
  dsimp only
  rw [if_pos hst, hp]
  dsimp only
  rw [if_neg (by rw [haff]; exact Bool.false_ne_true), if_pos hneg]

theorem process_text_awaiting_neither (m : Manager) (now : Nat) (oracle : AIOutcome)
    (text : String) (uid : Nat) {a : Action}
    (hst : (get_context m uid now).1.state = "awaiting_confirmation")
    (hp : (get_context m uid now).1.confirmation_pending = some a)
    (haff : affirmWordsOrch.any (fun w => substrB w (pyLower text)) = false)
    (hneg : negWordsOrch.any (fun w => substrB w (pyLower text)) = false) :
    process_text m now oracle text uid =
      process_fresh (resolve_pronoun (get_context m uid now).2 text uid now).2
        now oracle text uid (get_context m uid now).1
        (resolve_pronoun (get_context m uid now).2 text uid now).1.1 := by
  unfold process_text
  dsimp only
  rw [if_pos hst, hp]
  dsimp only
  rw [if_neg (by rw [haff]; exact Bool.false_ne_true),
      if_neg (by rw [hneg]; exact Bool.false_ne_true)]

theorem confirmation_gate_needs {a : Action} (m : Manager) (now : Nat)
    (oracle : AIOutcome) (uid : Nat) (h : needs_confirmation_check a = true) :
    confirmation_gate m now oracle uid a =
      (build_confirmation_message a,
       set_confirmation
         (if truthyNat a.entities.lead_id then
            update_context_lead m uid (a.entities.lead_id.getD 0) none now
          else m) uid a now) := by
  unfold confirmation_gate
  dsimp only
  rw [if_pos h]

theorem confirmation_gate_direct {a : Action} (m : Manager) (now : Nat)
    (oracle : AIOutcome) (uid : Nat) (h : needs_confirmation_check a = false) :
    confirmation_gate m now oracle uid a =
      execute_action
        (if truthyNat a.entities.lead_id then
           update_context_lead m uid (a.entities.lead_id.getD 0) none now
         else m) now oracle a uid false := by
  unfold confirmation_gate
  dsimp only
  rw [if_neg (by rw [h]; exact Bool.false_ne_true)]

/-! ### C2: mutating intents always hit the confirmation gate -/

theorem needs_confirmation_of_mutating {a : Action}
    (h : a.intent = Intent.create_lead ∨ a.intent = Intent.edit_lead ∨
         a.intent = Intent.delete_lead) :
    needs_confirmation_check a = true := by
  unfold needs_confirmation_check
  rcases h with h | h | h <;> rw [h] <;> decide

/-- **C2.** While no confirmation is pending, an input whose detected intent
is CREATE_LEAD, EDIT_LEAD or DELETE_LEAD is never executed: the action is
stored as the pending confirmation, the state becomes
`awaiting_confirmation`, and the returned structured result is exactly the
confirmation prompt with `needs_confirmation = true`; in particular
`"delete lead #12"` yields intent DELETE_LEAD, `needs_confirmation = true`
and a response containing the literal token `"12"`. -/
theorem mutating_intents_gated (m : Manager) (now : Nat) (oracle : AIOutcome)
    (text : String) (uid : Nat)
    (hnp : ¬((get_context m uid now).1.state = "awaiting_confirmation" ∧
             (get_context m uid now).1.confirmation_pending.isSome = true))
    (hint : (detected_action m now text uid).intent = Intent.create_lead ∨
            (detected_action m now text uid).intent = Intent.edit_lead ∨
            (detected_action m now text uid).intent = Intent.delete_lead) :
    (process_text m now oracle text uid).1 =
      build_confirmation_message (detected_action m now text uid) ∧
    (process_text m now oracle text uid).1.needs_confirmation = true ∧
    pendingOf (process_text m now oracle text uid).2 uid =
      some (some (detected_action m now text uid)) ∧
    stateOf (process_text m now oracle text uid).2 uid =
      some "awaiting_confirmation" ∧
    ((detect "delete lead #12" (some (freshContext 7 0))).intent = Intent.delete_lead ∧
     (process_text { : Manager} 0 AIOutcome.fail "delete lead #12" 7).1.needs_confirmation = true ∧
     substrB "12" (process_text { : Manager} 0 AIOutcome.fail "delete lead #12" 7).1.response = true) := by
  have hgate := @confirmation_gate_needs (detected_action m now text uid)
    (resolve_pronoun (get_context m uid now).2 text uid now).2 now oracle uid
    (needs_confirmation_of_mutating hint)
  have heq : process_text m now oracle text uid =
      confirmation_gate (resolve_pronoun (get_context m uid now).2 text uid now).2
        now oracle uid (detected_action m now text uid) := by
    rw [process_text_eq_fresh m now oracle text uid hnp]
    rfl
  rw [heq, hgate]
  refine ⟨rfl, rfl, pendingOf_set_confirmation _ uid _ now,
    stateOf_set_confirmation _ uid _ now, ?_, ?_, ?_⟩
  · decide
  · decide
  · decide

/-- Witness for C2: a live run of `"delete lead #12"` against the empty
manager discharges both hypotheses. -/
theorem mutating_intents_gated_witness :
    (process_text { : Manager} 0 AIOutcome.fail "delete lead #12" 7).1.needs_confirmation =
      true ∧
    stateOf (process_text { : Manager} 0 AIOutcome.fail "delete lead #12" 7).2 7 =
      some "awaiting_confirmation" :=
  ⟨(mutating_intents_gated { : Manager} 0 AIOutcome.fail "delete lead #12" 7
      (by decide) (by decide)).2.1,
   (mutating_intents_gated { : Manager} 0 AIOutcome.fail "delete lead #12" 7
      (by decide) (by decide)).2.2.2.1⟩

/-! ### C4: the three-tier cascade of `detect` -/

theorem find?_some_first {α : Type} {p : α → Bool} :
    ∀ {l : List α} {x : α}, l.find? p = some x →
      p x = true ∧ ∃ i, ∃ hi : i < l.length, l.get ⟨i, hi⟩ = x ∧
        ∀ j, ∀ hj : j < l.length, j < i → p (l.get ⟨j, hj⟩) = false := by
  intro l
  induction l with
  | nil => intro x h; simp [List.find?] at h
  | cons a t ih =>
    intro x h
    cases pa : p a with
    | true =>
      rw [List.find?_cons_of_pos _ pa] at h
      obtain rfl : a = x := by simpa using h
      exact ⟨pa, 0, by simp, rfl, fun j hj hlt => absurd hlt (Nat.not_lt_zero j)⟩
    | false =>
      rw [List.find?_cons_of_neg _ (by simp [pa])] at h
      obtain ⟨hx, i, hi, hget, hbefore⟩ := ih h
      refine ⟨hx, i + 1, by simpa using Nat.succ_lt_succ hi, by simpa using hget, ?_⟩
      intro j hj hlt
      cases j with
      | zero => simpa using pa
      | succ k =>
        have hk : k < t.length := by simpa using hj
        have := hbefore k hk (Nat.lt_of_succ_lt_succ hlt)
        simpa using this

theorem find?_eq_none_of_all {α : Type} {p : α → Bool} :
    ∀ {l : List α}, (∀ x ∈ l, p x = false) → l.find? p = none := by
  intro l
  induction l with
  | nil => intro _; rfl
  | cons a t ih =>
    intro h
    rw [List.find?_cons_of_neg _ (by simp [h a (List.mem_cons_self a t)])]
    exact ih (fun x hx => h x (List.mem_cons_of_mem _ hx))

theorem find?_isSome_of_mem {α : Type} {p : α → Bool} {l : List α} {x : α}
    (hx : x ∈ l) (hp : p x = true) : (l.find? p).isSome = true := by
  induction l with
  | nil => simp at hx
  | cons a t ih =>
    cases pa : p a with
    | true => rw [List.find?_cons_of_pos _ pa]; rfl
    | false =>
      rw [List.find?_cons_of_neg _ (by simp [pa])]
      rcases List.mem_cons.mp hx with h1 | h1
      · rw [h1] at hp
        rw [hp] at pa
        exact absurd pa (by decide)
      · exact ih h1

/-- **C4.** `detect` evaluates exactly three tiers in fixed order, first
match wins: (1) if any pattern entry has an exact-phrase hit, the result has
confidence 0.9 and its intent is the first phrase-hitting entry in declared
table order (so an exact-phrase match always outranks a keyword+verb match);
(2) otherwise, if any entry has a keyword-plus-verb hit, the result has
confidence 0.8 and its intent is the first such entry in declared order;
(3) otherwise a bare affirmative token yields CONFIRM at 0.95 and a bare
negative token yields CANCEL at 0.95; if nothing matches the result is
UNKNOWN at confidence 0.3 with entities still extracted. -/
theorem detect_three_tier_cascade (text : String) (ctx : Option UserContext) :
    (PATTERNS.any (fun p => phraseHit p.2 (pyLower text)) = true →
      (detect text ctx).confidence = 9/10 ∧
      (detect text ctx).entities = fillLeadFromContext (extract_entities text) ctx ∧
      ∃ i, ∃ hi : i < PATTERNS.length,
        (PATTERNS.get ⟨i, hi⟩).1 = (detect text ctx).intent ∧
        phraseHit (PATTERNS.get ⟨i, hi⟩).2 (pyLower text) = true ∧
        ∀ j, ∀ hj : j < PATTERNS.length, j < i →
          phraseHit (PATTERNS.get ⟨j, hj⟩).2 (pyLower text) = false) ∧
    (PATTERNS.all (fun p => !phraseHit p.2 (pyLower text)) = true →
     PATTERNS.any (fun p => kwVerbHit p.2 (pyLower text)) = true →
      (detect text ctx).confidence = 8/10 ∧
      (detect text ctx).entities = fillLeadFromContext (extract_entities text) ctx ∧
      ∃ i, ∃ hi : i < PATTERNS.length,
        (PATTERNS.get ⟨i, hi⟩).1 = (detect text ctx).intent ∧
        kwVerbHit (PATTERNS.get ⟨i, hi⟩).2 (pyLower text) = true ∧
        ∀ j, ∀ hj : j < PATTERNS.length, j < i →
          kwVerbHit (PATTERNS.get ⟨j, hj⟩).2 (pyLower text) = false) ∧
    (PATTERNS.all (fun p => !phraseHit p.2 (pyLower text)) = true →
     PATTERNS.all (fun p => !kwVerbHit p.2 (pyLower text)) = true →
      ((affirmWordsDetect.any (fun w => substrB w (pyLower text)) = true →
        detect text ctx =
          { intent := Intent.confirm, entities := {}, confidence := 19/20,
            original_text := text }) ∧
       (affirmWordsDetect.any (fun w => substrB w (pyLower text)) = false →
        negWordsDetect.any (fun w => substrB w (pyLower text)) = true →
        detect text ctx =
          { intent := Intent.cancel, entities := {}, confidence := 19/20,
            original_text := text }) ∧
       (affirmWordsDetect.any (fun w => substrB w (pyLower text)) = false →
        negWordsDetect.any (fun w => substrB w (pyLower text)) = false →
        detect text ctx =
          { intent := Intent.unknown, entities := extract_entities text,
            confidence := 3/10, original_text := text }))) := by
  refine ⟨?_, ?_, ?_⟩
  · intro hany
    obtain ⟨p, hmem, hhit⟩ := List.any_eq_true.mp hany
    have hsome : (PATTERNS.find? (fun q => phraseHit q.2 (pyLower text))).isSome = true :=
      find?_isSome_of_mem hmem hhit
    obtain ⟨q, hq⟩ := Option.isSome_iff_exists.mp hsome
    obtain ⟨hqhit, i, hi, hget, hbefore⟩ := find?_some_first hq
    have hd : detect text ctx =
        { intent := q.1,
          entities := fillLeadFromContext (extract_entities text) ctx,
          confidence := 9/10, original_text := text } := by
      unfold detect
      dsimp only
      rw [hq]
    refine ⟨by rw [hd], by rw [hd], i, hi, ?_, ?_, hbefore⟩
    · rw [hget, hd]
    · rw [hget]; exact hqhit
  · intro hall hany
    have hnone : ∀ p ∈ PATTERNS, phraseHit p.2 (pyLower text) = false := fun p hp => by
      simpa using List.all_eq_true.mp hall p hp
    obtain ⟨p, hmem, hhit⟩ := List.any_eq_true.mp hany
    have hfn : PATTERNS.find? (fun q => phraseHit q.2 (pyLower text)) = none :=
      find?_eq_none_of_all hnone
    have hsome : (PATTERNS.find? (fun q => kwVerbHit q.2 (pyLower text))).isSome = true :=
      find?_isSome_of_mem hmem hhit
    obtain ⟨q, hq⟩ := Option.isSome_iff_exists.mp hsome
    obtain ⟨hqhit, i, hi, hget, hbefore⟩ := find?_some_first hq
    have hd : detect text ctx =
        { intent := q.1,
          entities := fillLeadFromContext (extract_entities text) ctx,
          confidence := 8/10, original_text := text } := by
      unfold detect
      dsimp only
      rw [hfn, hq]
    refine ⟨by rw [hd], by rw [hd], i, hi, ?_, ?_, hbefore⟩
    · rw [hget, hd]
    · rw [hget]; exact hqhit
  · intro hall1 hall2
    have hnone1 : ∀ p ∈ PATTERNS, phraseHit p.2 (pyLower text) = false := fun p hp => by
      simpa using List.all_eq_true.mp hall1 p hp
    have hnone2 : ∀ p ∈ PATTERNS, kwVerbHit p.2 (pyLower text) = false := fun p hp => by
      simpa using List.all_eq_true.mp hall2 p hp
    have hfn1 : PATTERNS.find? (fun q => phraseHit q.2 (pyLower text)) = none :=
      find?_eq_none_of_all hnone1
    have hfn2 : PATTERNS.find? (fun q => kwVerbHit q.2 (pyLower text)) = none :=
      find?_eq_none_of_all hnone2
    refine ⟨?_, ?_, ?_⟩
    · intro haff
      unfold detect
      dsimp only
      rw [hfn1, hfn2]
      dsimp only
      rw [if_pos haff]
    · intro haff hneg
      unfold detect
      dsimp only
      rw [hfn1, hfn2]
      dsimp only
      rw [if_neg (by rw [haff]; exact Bool.false_ne_true), if_pos hneg]
    · intro haff hneg
      unfold detect
      dsimp only
      rw [hfn1, hfn2]
      dsimp only
      rw [if_neg (by rw [haff]; exact Bool.false_ne_true),
          if_neg (by rw [hneg]; exact Bool.false_ne_true)]

/-- Witness for C4: `"delete lead #12"` exercises tier 1 (a phrase match at
confidence 0.9) and `"yes"` exercises tier 3 (an affirmation at confidence
0.95). -/
theorem detect_three_tier_cascade_witness :
    ((detect "delete lead #12" none).confidence = 9/10 ∧
     (detect "delete lead #12" none).intent = Intent.delete_lead) ∧
    (detect "yes" none =
      { intent := Intent.confirm, entities := {}, confidence := 19/20,
        original_text := "yes" }) := by
  refine ⟨⟨((detect_three_tier_cascade "delete lead #12" none).1 (by decide)).1,
    by decide⟩, ?_⟩
  exact ((detect_three_tier_cascade "yes" none).2.2 (by decide) (by decide)).1 (by decide)

/-! ### C6: AI fallback routing and graceful degradation -/

/-- **C6.** The AI-fallback path is taken exactly for UNKNOWN intent
(non-UNKNOWN executions carry a `response_type`, which no fallback result
has); with no generative-AI credential the fixed clarifying prompt with
example phrasings is returned and the backend outcome is never consulted;
with a credential every backend failure becomes the fixed retry response;
in all cases the caller receives a structured result
(`success = true`, `needs_confirmation = false`), never an exception. -/
theorem ai_fallback_degradation (m : Manager) (now : Nat) (oracle : AIOutcome)
    (a : Action) (uid : Nat) (confirmed : Bool) (text : String) :
    (a.intent = Intent.unknown →
      execute_action m now oracle a uid confirmed =
        ai_fallback
          (if confirmed then clear_confirmation (get_context m uid now).2 uid now
           else (get_context m uid now).2) oracle a.original_text) ∧
    (a.intent ≠ Intent.unknown →
      (execute_action m now oracle a uid confirmed).1.response_type.isSome = true) ∧
    (truthyStr m.openai_api_key = false →
      ai_fallback m oracle text =
        ({ success := true, text := text, actionOut := ActionOut.intentOnly Intent.unknown,
           response := "Не зовсім зрозумів запит. Уточніть: що саме зробити з лідом?",
           followup_hint := some "Наприклад: \x27покажи ліди\x27, \x27додай ліда\x27, \x27додай нотатку до ліда #12\x27.",
           needs_confirmation := false }, m)) ∧
    (truthyStr m.openai_api_key = true →
      ai_fallback m AIOutcome.fail text =
        ({ success := true, text := text, actionOut := ActionOut.intentOnly Intent.unknown,
           response := "Не вдалося обробити запит. Спробуйте ще раз.",
           needs_confirmation := false }, m)) ∧
    ((ai_fallback m oracle text).1.success = true ∧
     (ai_fallback m oracle text).1.needs_confirmation = false) := by
  refine ⟨?_, ?_, ?_, ?_, ?_⟩
  · intro h
    unfold execute_action
    dsimp only
    rw [if_pos h]
  · intro h
    unfold execute_action
    dsimp only
    rw [if_neg h]
    rfl
  · intro h
    unfold ai_fallback
    simp only [h]
    rfl
  · intro h
    unfold ai_fallback
    simp only [h]
    rfl
  · unfold ai_fallback
    split
    · exact ⟨rfl, rfl⟩
    · cases oracle <;> exact ⟨rfl, rfl⟩

/-- Witness for C6: an UNKNOWN action on a manager with no credential, and a
failing backend on a manager with a credential. -/
theorem ai_fallback_degradation_witness :
    (execute_action { : Manager} 0 AIOutcome.fail
        { intent := Intent.unknown, entities := {}, original_text := "qqq" } 1 false =
      ai_fallback
        (if false then clear_confirmation (get_context { : Manager} 1 0).2 1 0
         else (get_context { : Manager} 1 0).2) AIOutcome.fail "qqq") ∧
    (ai_fallback { openai_api_key := some "k" } AIOutcome.fail "hi" =
      ({ success := true, text := "hi", actionOut := ActionOut.intentOnly Intent.unknown,
         response := "Не вдалося обробити запит. Спробуйте ще раз.",
         needs_confirmation := false }, { openai_api_key := some "k" })) :=
  ⟨(ai_fallback_degradation { : Manager} 0 AIOutcome.fail
      { intent := Intent.unknown, entities := {}, original_text := "qqq" } 1 false "x").1
      rfl,
   (ai_fallback_degradation { openai_api_key := some "k" } 0 AIOutcome.fail
      { intent := Intent.unknown, entities := {}, original_text := "qqq" } 1 false
      "hi").2.2.2.1 (by decide)⟩

/-! ### C7: the quality assessor -/

/-- **C7 counterexample.** On the empty string the assessor does not follow
the subtraction scheme the claim states for every input: the claimed scheme
(as modelled by `assess_spec`) gives score 1.0 − 0.4 − 0.25 = 0.35, but the
code short-circuits empty input to score 0.0 with two fixed hints that are
not the per-penalty hints. -/
theorem quality_empty_score_counterexample :
    (assess_transcription_quality "").score = 0 ∧
    (assess_spec "").score = 7/20 ∧
    (assess_transcription_quality "").score ≠ (assess_spec "").score ∧
    (assess_transcription_quality "").hints ≠ (assess_spec "").hints := by
  have h1 : (assess_transcription_quality "").score = mkRat 0 1 := rfl
  have h2 : (assess_spec "").score = mkRat 7 20 := rfl
  have h3 : (assess_transcription_quality "").hints =
      ["Спробуйте говорити чіткіше", "Запишіть голосове в тихому місці"] := rfl
  have h4 : (assess_spec "").hints =
      ["Коротке повідомлення — додайте більше контексту",
       "Сформулюйте команду повним реченням"] := rfl
  have e1 : (mkRat 0 1 : ℚ) = 0 := by simp
  have e2 : (mkRat 7 20 : ℚ) = 7/20 := by
    rw [Rat.mkRat_eq_divInt, Rat.divInt_eq_div]; norm_num
  refine ⟨by rw [h1, e1], by rw [h2, e2], ?_, ?_⟩
  · rw [h1, h2, e1, e2]; norm_num
  · rw [h3, h4]; decide

/-- **C7 (amended).** For every input that is non-empty after stripping, the
assessor follows exactly the claimed scheme: start at 1.0, subtract 0.4 for
near-empty input (< 6 characters), 0.25 for fewer than 2 tokens, 0.2 for a
> 20 % ratio of characters outside the allow-list, 0.15 for a run of 5+
identical characters other than the newline (the regex dot does not match a
newline, so a run of newlines draws no penalty), clamped to [0,1], with HIGH
iff score ≥ 0.75, MEDIUM iff 0.5 ≤ score < 0.75, else LOW, needs-clarification
iff score < 0.5, and at most 3 hints, one per triggered penalty in
penalty-check order.  Input that is empty after stripping instead
short-circuits to score 0.0, label LOW, needs-clarification true, and two
fixed hints; in particular the empty string yields label LOW,
needs-clarification true and at least one hint.  The last two conjunct
groups pin the newline behaviour down: a run of five newlines inside
"ab\n\n\n\n\ncd" is not penalised (score 1.0, HIGH, no hints), while the
non-newline run in "aaaaaa" draws the artifact hint. -/
theorem quality_assessment_scheme (t : String) :
    (stripS t ≠ "" → assess_transcription_quality t = assess_spec t) ∧
    (stripS t = "" →
      assess_transcription_quality t =
        { score := 0, label := "LOW", needs_clarification := true,
          hints := ["Спробуйте говорити чіткіше",
                    "Запишіть голосове в тихому місці"] }) ∧
    ((assess_transcription_quality "").label = "LOW" ∧
     (assess_transcription_quality "").needs_clarification = true ∧
     (assess_transcription_quality "").hints ≠ []) ∧
    ((assess_transcription_quality "ab\n\n\n\n\ncd").score = 1 ∧
     (assess_transcription_quality "ab\n\n\n\n\ncd").label = "HIGH" ∧
     (assess_transcription_quality "ab\n\n\n\n\ncd").hints = []) ∧
    (assess_transcription_quality "aaaaaa").hints =
      ["Сформулюйте команду повним реченням",
       "Ймовірна помилка розпізнавання — повторіть команду"] := by
  refine ⟨?_, ?_, ⟨by decide, by decide, by decide⟩,
    ⟨?_, by decide, by decide⟩, by decide⟩
  · intro h
    unfold assess_transcription_quality assess_spec
    dsimp only
    rw [if_neg h]
  · intro h
    unfold assess_transcription_quality
    dsimp only
    rw [if_pos h]
    rw [show (mkRat 0 1 : ℚ) = 0 from by simp]
  · have h1 : (assess_transcription_quality "ab\n\n\n\n\ncd").score = mkRat 1 1 := rfl
    rw [h1]; simp

/-- Witness for C7 at a non-empty and at an empty input. -/
theorem quality_assessment_scheme_witness :
    assess_transcription_quality "hello world" = assess_spec "hello world" ∧
    (assess_transcription_quality " ").score = 0 :=
  ⟨(quality_assessment_scheme "hello world").1 (by decide),
   by rw [(quality_assessment_scheme " ").2.1 (by decide)]⟩

/-! ### Stability of a user's stored context across operations -/

/-- The stored context of `uid`, if any. -/
def ctxAt (m : Manager) (uid : Nat) : Option UserContext := findCtx m.user_contexts uid

theorem findCtx_filter_keep {l : Store} {uid : Nat} {c : UserContext}
    {p : Nat × UserContext → Bool} (hf : findCtx l uid = some c)
    (hp : p (uid, c) = true) : findCtx (l.filter p) uid = some c := by
  induction l with
  | nil => simp [findCtx] at hf
  | cons q rest ih =>
    by_cases hq : q.1 = uid
    · have hc : q.2 = c := by
        simp only [findCtx, hq, if_pos, Option.some_inj] at hf
        exact hf
      have hq2 : q = (uid, c) := by
        obtain ⟨x, y⟩ := q
        simp only at hq hc
        simp [hq, hc]
      rw [List.filter_cons, hq2]
      simp only [hp, if_pos, findCtx, if_pos rfl]
    · simp only [findCtx, hq, if_neg, not_false_iff] at hf
      rw [List.filter_cons]
      by_cases hpq : p q = true
      · simp only [hpq, if_pos, findCtx, hq, if_neg, not_false_iff]
        exact ih hf
      · simp only [hpq, if_neg, not_false_iff]
        exact ih hf

theorem ctxAt_cleanup {m : Manager} {uid : Nat} {c : UserContext} (now : Nat)
    (hf : ctxAt m uid = some c)
    (hlive : ¬(c.last_seen_at + m.context_ttl_minutes < now)) :
    ctxAt (cleanup_contexts m now) uid = some c := by
  unfold ctxAt cleanup_contexts
  dsimp only
  exact findCtx_filter_keep hf (by rw [decide_eq_false hlive]; rfl)

theorem ctxAt_get_context {m : Manager} {uid : Nat} {c : UserContext} (now : Nat)
    (hf : ctxAt m uid = some c)
    (hlive : ¬(c.last_seen_at + m.context_ttl_minutes < now)) :
    (get_context m uid now).1 = { c with last_seen_at := now } ∧
    ctxAt (get_context m uid now).2 uid = some { c with last_seen_at := now } := by
  have hclean := ctxAt_cleanup now hf hlive
  unfold get_context
  dsimp only
  unfold ctxAt at hclean ⊢
  rw [hclean]
  exact ⟨rfl, findCtx_storeSet_self _ _ _⟩

theorem ctxAt_get_context_absent {m : Manager} {uid : Nat} (now : Nat)
    (hf : ctxAt (cleanup_contexts m now) uid = none) :
    (get_context m uid now).1 = freshContext uid now ∧
    ctxAt (get_context m uid now).2 uid = some (freshContext uid now) := by
  unfold get_context
  dsimp only
  unfold ctxAt at hf ⊢
  rw [hf]
  exact ⟨rfl, findCtx_storeSet_self _ _ _⟩

theorem ctxAt_update_lead {m : Manager} {uid : Nat} {c : UserContext} (lid now : Nat)
    (hf : ctxAt m uid = some c)
    (hlive : ¬(c.last_seen_at + m.context_ttl_minutes < now)) :
    ctxAt (update_context_lead m uid lid none now) uid =
      some { c with last_lead_id := some lid, last_seen_at := now } := by
  have hg := ctxAt_get_context now hf hlive
  unfold update_context_lead
  dsimp only
  unfold ctxAt
  rw [hg.1]
  exact findCtx_storeSet_self _ _ _

theorem ctxAt_set_confirmation {m : Manager} {uid : Nat} {c : UserContext}
    (a : Action) (now : Nat) (hf : ctxAt m uid = some c)
    (hlive : ¬(c.last_seen_at + m.context_ttl_minutes < now)) :
    ctxAt (set_confirmation m uid a now) uid =
      some { c with confirmation_pending := some a,
                    state := "awaiting_confirmation", last_seen_at := now } := by
  have hg := ctxAt_get_context now hf hlive
  unfold set_confirmation
  dsimp only
  unfold ctxAt
  rw [hg.1]
  exact findCtx_storeSet_self _ _ _

theorem ctxAt_clear_confirmation {m : Manager} {uid : Nat} {c : UserContext}
    (now : Nat) (hf : ctxAt m uid = some c)
    (hlive : ¬(c.last_seen_at + m.context_ttl_minutes < now)) :
    ctxAt (clear_confirmation m uid now) uid =
      some { c with confirmation_pending := none, state := "idle",
                    last_seen_at := now } := by
  have hg := ctxAt_get_context now hf hlive
  unfold clear_confirmation
  dsimp only
  unfold ctxAt
  rw [hg.1]
  exact findCtx_storeSet_self _ _ _

theorem ctxAt_resolve_pronoun {m : Manager} {uid : Nat} {c : UserContext}
    (text : String) (now : Nat) (hf : ctxAt m uid = some c)
    (hlive : ¬(c.last_seen_at + m.context_ttl_minutes < now)) :
    ctxAt (resolve_pronoun m text uid now).2 uid = some { c with last_seen_at := now } := by
  have hg := ctxAt_get_context now hf hlive
  unfold resolve_pronoun
  dsimp only
  split <;> exact hg.2

/-- Preservation of the configuration fields by every operation (they touch
only `user_contexts`). -/
theorem ttl_get_context (m : Manager) (uid now : Nat) :
    (get_context m uid now).2.context_ttl_minutes = m.context_ttl_minutes := rfl

theorem ttl_resolve_pronoun (m : Manager) (text : String) (uid now : Nat) :
    (resolve_pronoun m text uid now).2.context_ttl_minutes = m.context_ttl_minutes := by
  unfold resolve_pronoun
  dsimp only
  split <;> rfl

theorem ttl_update_lead (m : Manager) (uid lid : Nat) (name : Option String) (now : Nat) :
    (update_context_lead m uid lid name now).context_ttl_minutes = m.context_ttl_minutes := rfl

theorem ttl_clear_confirmation (m : Manager) (uid now : Nat) :
    (clear_confirmation m uid now).context_ttl_minutes = m.context_ttl_minutes := rfl

theorem live_now {now ttl : Nat} : ¬(now + ttl < now) := by omega

theorem ai_fallback_snd (m : Manager) (oracle : AIOutcome) (text : String) :
    (ai_fallback m oracle text).2 = m := by
  unfold ai_fallback
  split
  · rfl
  · split <;> rfl

theorem ctxAt_get_context_self (m : Manager) (uid now : Nat) :
    ctxAt (get_context m uid now).2 uid = some (get_context m uid now).1 := by
  unfold ctxAt get_context
  dsimp only
  exact findCtx_storeSet_self _ _ _

theorem last_seen_get_context (m : Manager) (uid now : Nat) :
    (get_context m uid now).1.last_seen_at = now := rfl

/-- The stored context of `uid` after `_execute_action` with
`confirmed = False` and a known (non-UNKNOWN) intent: touched, possibly
lead-updated, with the turn appended. -/
theorem ctxAt_execute_false {m : Manager} {uid : Nat} {c : UserContext}
    (now : Nat) (oracle : AIOutcome) (a : Action)
    (hf : ctxAt m uid = some c)
    (hlive : ¬(c.last_seen_at + m.context_ttl_minutes < now))
    (hni : ¬(a.intent = Intent.unknown)) :
    ctxAt (execute_action m now oracle a uid false).2 uid =
      some ((if truthyNat a.entities.lead_id then
              { c with last_lead_id := some (a.entities.lead_id.getD 0),
                       last_seen_at := now }
            else { c with last_seen_at := now }).add_turn
        { timestamp := now, user_input := a.original_text, action := a,
          bot_response :=
            (build_action_response a { c with last_seen_at := now } false).text } now) ∧
    (execute_action m now oracle a uid false).1.response =
      (build_action_response a { c with last_seen_at := now } false).text ∧
    (execute_action m now oracle a uid false).1.needs_confirmation = false ∧
    (execute_action m now oracle a uid false).1.success = true := by
  obtain ⟨hg1, hg2⟩ := ctxAt_get_context now hf hlive
  have hg2' : ctxAt (get_context m uid now).2 uid = some { c with last_seen_at := now } := hg2
  have hlive1 : ¬(({ c with last_seen_at := now } : UserContext).last_seen_at +
      (get_context m uid now).2.context_ttl_minutes < now) := live_now
  obtain ⟨hh1, hh2⟩ := ctxAt_get_context now hg2' hlive1
  unfold execute_action
  dsimp only
  rw [if_neg hni]
  simp only [Bool.false_eq_true, if_false]
  rw [hh1]
  by_cases ht : truthyNat a.entities.lead_id = true
  · rw [if_pos ht, if_pos ht]
    have hup := ctxAt_update_lead (a.entities.lead_id.getD 0) now hh2 live_now
    refine ⟨?_, by trivial, by trivial, by trivial⟩
    unfold ctxAt at hup ⊢
    rw [findCtx_modifyCtx_self, hup]
    rfl
  · rw [if_neg ht, if_neg ht]
    refine ⟨?_, by trivial, by trivial, by trivial⟩
    unfold ctxAt at hh2 ⊢
    rw [findCtx_modifyCtx_self, hh2]
    rfl

/-- The stored context of `uid` after `_execute_action` with
`confirmed = False` and UNKNOWN intent (AI-fallback path): only touched, no
turn appended. -/
theorem ctxAt_execute_false_unknown {m : Manager} {uid : Nat} {c : UserContext}
    (now : Nat) (oracle : AIOutcome) (a : Action)
    (hf : ctxAt m uid = some c)
    (hlive : ¬(c.last_seen_at + m.context_ttl_minutes < now))
    (hu : a.intent = Intent.unknown) :
    ctxAt (execute_action m now oracle a uid false).2 uid =
      some { c with last_seen_at := now } := by
  obtain ⟨hg1, hg2⟩ := ctxAt_get_context now hf hlive
  unfold execute_action
  dsimp only
  rw [if_pos hu, ai_fallback_snd]
  simp only [Bool.false_eq_true, if_false]
  exact hg2

/-- The stored context of `uid` after `_execute_action` with
`confirmed = True` and a known intent: pending and state cleared, possibly
lead-updated, with the turn appended. -/
theorem ctxAt_execute_true {m : Manager} {uid : Nat} {c : UserContext}
    (now : Nat) (oracle : AIOutcome) (a : Action)
    (hf : ctxAt m uid = some c)
    (hlive : ¬(c.last_seen_at + m.context_ttl_minutes < now))
    (hni : ¬(a.intent = Intent.unknown)) :
    ctxAt (execute_action m now oracle a uid true).2 uid =
      some ((if truthyNat a.entities.lead_id then
              { c with confirmation_pending := none, state := "idle",
                       last_lead_id := some (a.entities.lead_id.getD 0),
                       last_seen_at := now }
            else { c with confirmation_pending := none, state := "idle",
                          last_seen_at := now }).add_turn
        { timestamp := now, user_input := a.original_text, action := a,
          bot_response :=
            (build_action_response a
              { c with confirmation_pending := none, state := "idle",
                       last_seen_at := now } true).text } now) ∧
    (execute_action m now oracle a uid true).1.response =
      (build_action_response a
        { c with confirmation_pending := none, state := "idle",
                 last_seen_at := now } true).text ∧
    (execute_action m now oracle a uid true).1.needs_confirmation = false ∧
    (execute_action m now oracle a uid true).1.success = true := by
  obtain ⟨hg1, hg2⟩ := ctxAt_get_context now hf hlive
  have hlive1 : ¬(({ c with last_seen_at := now } : UserContext).last_seen_at +
      (get_context m uid now).2.context_ttl_minutes < now) := live_now
  have hcl := ctxAt_clear_confirmation now hg2 hlive1
  have hlive2 : ¬(({ c with
      confirmation_pending := none,
      state := "idle",
      last_seen_at := now } : UserContext).last_seen_at +
      (clear_confirmation (get_context m uid now).2 uid now).context_ttl_minutes < now) :=
    live_now
  obtain ⟨hh1, hh2⟩ := ctxAt_get_context now hcl hlive2
  unfold execute_action
  dsimp only
  rw [if_neg hni]
  simp only [eq_self_iff_true, if_true]
  rw [hh1]
  by_cases ht : truthyNat a.entities.lead_id = true
  · rw [if_pos ht, if_pos ht]
    have hup := ctxAt_update_lead (a.entities.lead_id.getD 0) now hh2 live_now
    refine ⟨?_, by trivial, by trivial, by trivial⟩
    unfold ctxAt at hup ⊢
    rw [findCtx_modifyCtx_self, hup]
    rfl
  · rw [if_neg ht, if_neg ht]
    refine ⟨?_, by trivial, by trivial, by trivial⟩
    unfold ctxAt at hh2 ⊢
    rw [findCtx_modifyCtx_self, hh2]
    rfl

/-- With `confirmed = True` and UNKNOWN intent, the pending state is still
cleared before the fallback runs. -/
theorem ctxAt_execute_true_unknown {m : Manager} {uid : Nat} {c : UserContext}
    (now : Nat) (oracle : AIOutcome) (a : Action)
    (hf : ctxAt m uid = some c)
    (hlive : ¬(c.last_seen_at + m.context_ttl_minutes < now))
    (hu : a.intent = Intent.unknown) :
    ctxAt (execute_action m now oracle a uid true).2 uid =
      some { c with confirmation_pending := none, state := "idle",
                    last_seen_at := now } := by
  obtain ⟨hg1, hg2⟩ := ctxAt_get_context now hf hlive
  have hlive1 : ¬(({ c with last_seen_at := now } : UserContext).last_seen_at +
      (get_context m uid now).2.context_ttl_minutes < now) := live_now
  have hcl := ctxAt_clear_confirmation now hg2 hlive1
  unfold execute_action
  dsimp only
  rw [if_pos hu, ai_fallback_snd]
  simp only [eq_self_iff_true, if_true]
  exact hcl

/-! ### C5: the TTL sweep -/

theorem absent_cleanup_of_stale {m : Manager} {uid now : Nat}
    (hstale : ∀ c, (uid, c) ∈ m.user_contexts →
      c.last_seen_at + m.context_ttl_minutes < now) :
    ctxAt (cleanup_contexts m now) uid = none := by
  unfold ctxAt cleanup_contexts
  dsimp only
  exact findCtx_filter_none_of_all (fun c hc => by
    rw [decide_eq_true (hstale c hc)]
    rfl)

theorem absent_pres_cleanup {m : Manager} {uid : Nat} (now : Nat)
    (h : ctxAt m uid = none) : ctxAt (cleanup_contexts m now) uid = none :=
  findCtx_none_filter h

theorem absent_pres_get_context {m : Manager} {uid uid2 : Nat} (now : Nat)
    (h : ctxAt m uid = none) (hne : uid ≠ uid2) :
    ctxAt (get_context m uid2 now).2 uid = none := by
  unfold ctxAt get_context
  dsimp only
  rw [findCtx_storeSet_ne _ hne]
  exact absent_pres_cleanup now h

theorem absent_pres_update_lead {m : Manager} {uid uid2 : Nat} (lid : Nat)
    (name : Option String) (now : Nat) (h : ctxAt m uid = none) (hne : uid ≠ uid2) :
    ctxAt (update_context_lead m uid2 lid name now) uid = none := by
  unfold ctxAt update_context_lead
  dsimp only
  rw [findCtx_storeSet_ne _ hne]
  exact absent_pres_get_context now h hne

theorem absent_pres_set_confirmation {m : Manager} {uid uid2 : Nat} (a : Action)
    (now : Nat) (h : ctxAt m uid = none) (hne : uid ≠ uid2) :
    ctxAt (set_confirmation m uid2 a now) uid = none := by
  unfold ctxAt set_confirmation
  dsimp only
  rw [findCtx_storeSet_ne _ hne]
  exact absent_pres_get_context now h hne

theorem absent_pres_clear_confirmation {m : Manager} {uid uid2 : Nat}
    (now : Nat) (h : ctxAt m uid = none) (hne : uid ≠ uid2) :
    ctxAt (clear_confirmation m uid2 now) uid = none := by
  unfold ctxAt clear_confirmation
  dsimp only
  rw [findCtx_storeSet_ne _ hne]
  exact absent_pres_get_context now h hne

theorem absent_pres_resolve_pronoun {m : Manager} {uid uid2 : Nat} (text : String)
    (now : Nat) (h : ctxAt m uid = none) (hne : uid ≠ uid2) :
    ctxAt (resolve_pronoun m text uid2 now).2 uid = none := by
  unfold resolve_pronoun
  dsimp only
  split <;> exact absent_pres_get_context now h hne

theorem absent_pres_execute_action {m : Manager} {uid uid2 : Nat} (now : Nat)
    (oracle : AIOutcome) (a : Action) (confirmed : Bool)
    (h : ctxAt m uid = none) (hne : uid ≠ uid2) :
    ctxAt (execute_action m now oracle a uid2 confirmed).2 uid = none := by
  have h1 := @absent_pres_get_context m uid uid2 now h hne
  have h2 : ctxAt (if confirmed then
      clear_confirmation (get_context m uid2 now).2 uid2 now
      else (get_context m uid2 now).2) uid = none := by
    by_cases hc : confirmed = true
    · simp only [hc, if_pos]
      exact absent_pres_clear_confirmation now h1 hne
    · rw [if_neg hc]
      exact h1
  unfold execute_action
  dsimp only
  split
  · rw [ai_fallback_snd]
    exact h2
  · have h3 := absent_pres_get_context now h2 hne
    have h4 : ctxAt (if truthyNat a.entities.lead_id then
        update_context_lead (get_context (if confirmed then
            clear_confirmation (get_context m uid2 now).2 uid2 now
            else (get_context m uid2 now).2) uid2 now).2 uid2
          (a.entities.lead_id.getD 0) none now
        else (get_context (if confirmed then
            clear_confirmation (get_context m uid2 now).2 uid2 now
            else (get_context m uid2 now).2) uid2 now).2) uid = none := by
      by_cases ht : truthyNat a.entities.lead_id = true
      · simp only [ht, if_pos]
        exact absent_pres_update_lead _ none now h3 hne
      · rw [if_neg ht]
        exact h3
    unfold ctxAt
    dsimp only
    rw [findCtx_modifyCtx_ne _ hne]
    exact h4

theorem absent_pres_gate {m : Manager} {uid uid2 : Nat} (now : Nat)
    (oracle : AIOutcome) (a : Action) (h : ctxAt m uid = none) (hne : uid ≠ uid2) :
    ctxAt (confirmation_gate m now oracle uid2 a).2 uid = none := by
  have h1 : ctxAt (if truthyNat a.entities.lead_id then
      update_context_lead m uid2 (a.entities.lead_id.getD 0) none now else m) uid = none := by
    by_cases ht : truthyNat a.entities.lead_id = true
    · simp only [ht, if_pos]
      exact absent_pres_update_lead _ none now h hne
    · rw [if_neg ht]
      exact h
  unfold confirmation_gate
  dsimp only
  split
  · exact absent_pres_set_confirmation _ now h1 hne
  · exact absent_pres_execute_action now oracle a false h1 hne

theorem absent_pres_process_text {m : Manager} {uid uid2 : Nat} (now : Nat)
    (oracle : AIOutcome) (text : String)
    (hstale : ∀ c, (uid, c) ∈ m.user_contexts →
      c.last_seen_at + m.context_ttl_minutes < now)
    (hne : uid ≠ uid2) :
    ctxAt (process_text m now oracle text uid2).2 uid = none := by
  have h1 : ctxAt (get_context m uid2 now).2 uid = none := by
    unfold ctxAt get_context
    dsimp only
    rw [findCtx_storeSet_ne _ hne]
    exact absent_cleanup_of_stale hstale
  have h2 := absent_pres_resolve_pronoun text now h1 hne
  unfold process_text
  dsimp only
  split
  · split
    · split
      · exact absent_pres_execute_action now oracle _ true h2 hne
      · split
        · exact absent_pres_clear_confirmation now h2 hne
        · exact absent_pres_gate now oracle _ h2 hne
    · exact absent_pres_gate now oracle _ h2 hne
  · exact absent_pres_gate now oracle _ h2 hne

/-- **C5.** Every public entry point of the context store sweeps first: a
context whose last activity is strictly older than the configured TTL is
fully deleted before the call is serviced, so after any public operation by
any *other* user the stale context is absent, and the next access by the
stale user itself lazily re-creates a brand-new context with empty turn
history, no last-referenced identifier, no pending action and state
`"idle"`. -/
theorem ttl_sweep_evicts_stale (m : Manager) (now uid uid2 lid : Nat)
    (oracle : AIOutcome) (text : String) (name : Option String) (a : Action)
    (hstaleB : m.user_contexts.all (fun p => !(p.1 == uid) ||
      decide (p.2.last_seen_at + m.context_ttl_minutes < now)) = true)
    (hne : uid ≠ uid2) :
    ctxAt (cleanup_contexts m now) uid = none ∧
    ctxAt (get_context m uid2 now).2 uid = none ∧
    ctxAt (update_context_lead m uid2 lid name now) uid = none ∧
    ctxAt (set_confirmation m uid2 a now) uid = none ∧
    ctxAt (clear_confirmation m uid2 now) uid = none ∧
    ctxAt (process_text m now oracle text uid2).2 uid = none ∧
    (get_context m uid now).1 = freshContext uid now ∧
    (get_context m uid now).1.conversation_history = [] ∧
    (get_context m uid now).1.last_lead_id = none ∧
    (get_context m uid now).1.confirmation_pending = none ∧
    (get_context m uid now).1.state = "idle" := by
  have hstale : ∀ c, (uid, c) ∈ m.user_contexts →
      c.last_seen_at + m.context_ttl_minutes < now := by
    intro c hc
    have h := List.all_eq_true.mp hstaleB (uid, c) hc
    simp only [beq_self_eq_true, Bool.not_true, Bool.false_or] at h
    exact of_decide_eq_true h
  have hclean := absent_cleanup_of_stale hstale
  have habs : ∀ uid3, uid ≠ uid3 → ctxAt (get_context m uid3 now).2 uid = none := by
    intro uid3 hne3
    unfold ctxAt get_context
    dsimp only
    rw [findCtx_storeSet_ne _ hne3]
    exact hclean
  have hfresh := @ctxAt_get_context_absent m uid now hclean
  refine ⟨hclean, habs uid2 hne, ?_, ?_, ?_,
    absent_pres_process_text now oracle text hstale hne,
    hfresh.1, by rw [hfresh.1]; rfl, by rw [hfresh.1]; rfl,
    by rw [hfresh.1]; rfl, by rw [hfresh.1]; rfl⟩
  · unfold ctxAt update_context_lead
    dsimp only
    rw [findCtx_storeSet_ne _ hne]
    exact habs uid2 hne
  · unfold ctxAt set_confirmation
    dsimp only
    rw [findCtx_storeSet_ne _ hne]
    exact habs uid2 hne
  · unfold ctxAt clear_confirmation
    dsimp only
    rw [findCtx_storeSet_ne _ hne]
    exact habs uid2 hne

theorem adopt_rid_intent (a : Action) (rid : Option Nat) :
    (adopt_rid a rid).intent = a.intent := by
  unfold adopt_rid
  split <;> rfl

theorem adopt_rid_original_text (a : Action) (rid : Option Nat) :
    (adopt_rid a rid).original_text = a.original_text := by
  unfold adopt_rid
  split <;> rfl

/-- After `_execute_action` with `confirmed = False`, the stored pending
action of `uid` is unchanged. -/
theorem pending_execute_false {m : Manager} {uid : Nat} {c : UserContext}
    (now : Nat) (oracle : AIOutcome) (act : Action)
    (hf : ctxAt m uid = some c)
    (hlive : ¬(c.last_seen_at + m.context_ttl_minutes < now)) :
    pendingOf (execute_action m now oracle act uid false).2 uid =
      some c.confirmation_pending := by
  by_cases hu : act.intent = Intent.unknown
  · have h := ctxAt_execute_false_unknown now oracle act hf hlive hu
    unfold pendingOf
    unfold ctxAt at h
    rw [h]
    rfl
  · have h := (ctxAt_execute_false now oracle act hf hlive hu).1
    unfold pendingOf
    unfold ctxAt at h
    rw [h]
    by_cases ht : truthyNat act.entities.lead_id = true
    · rw [if_pos ht]
      rfl
    · rw [if_neg ht]
      rfl

/-- After `_execute_action` with `confirmed = True`, the pending action and
state of `uid` are cleared. -/
theorem pending_state_execute_true {m : Manager} {uid : Nat} {c : UserContext}
    (now : Nat) (oracle : AIOutcome) (act : Action)
    (hf : ctxAt m uid = some c)
    (hlive : ¬(c.last_seen_at + m.context_ttl_minutes < now)) :
    pendingOf (execute_action m now oracle act uid true).2 uid = some none ∧
    stateOf (execute_action m now oracle act uid true).2 uid = some "idle" := by
  by_cases hu : act.intent = Intent.unknown
  · have h := ctxAt_execute_true_unknown now oracle act hf hlive hu
    unfold pendingOf stateOf
    unfold ctxAt at h
    rw [h]
    exact ⟨rfl, rfl⟩
  · have h := (ctxAt_execute_true now oracle act hf hlive hu).1
    unfold pendingOf stateOf
    unfold ctxAt at h
    rw [h]
    by_cases ht : truthyNat act.entities.lead_id = true
    · rw [if_pos ht]
      exact ⟨rfl, rfl⟩
    · rw [if_neg ht]
      exact ⟨rfl, rfl⟩

/-- Through the confirmation gate, an armed pending action stays armed (it
is either untouched or replaced wholesale by a new one). -/
theorem gate_pending_armed {m : Manager} {uid : Nat} {c : UserContext}
    (now : Nat) (oracle : AIOutcome) (act : Action)
    (hf : ctxAt m uid = some c)
    (hlive : ¬(c.last_seen_at + m.context_ttl_minutes < now))
    (harm : c.confirmation_pending.isSome = true) :
    (pendingOf (confirmation_gate m now oracle uid act).2 uid).map Option.isSome =
      some true := by
  unfold confirmation_gate
  dsimp only
  by_cases ht : truthyNat act.entities.lead_id = true
  · rw [if_pos ht]
    have hup := ctxAt_update_lead (act.entities.lead_id.getD 0) now hf hlive
    by_cases hn : needs_confirmation_check act = true
    · rw [if_pos hn]
      dsimp only
      rw [pendingOf_set_confirmation]
      rfl
    · rw [if_neg hn]
      rw [pending_execute_false now oracle act hup live_now]
      show some (Option.isSome c.confirmation_pending) = some true
      rw [harm]
  · rw [if_neg ht]
    by_cases hn : needs_confirmation_check act = true
    · rw [if_pos hn]
      dsimp only
      rw [pendingOf_set_confirmation]
      rfl
    · rw [if_neg hn]
      rw [pending_execute_false now oracle act hf hlive]
      show some (Option.isSome c.confirmation_pending) = some true
      rw [harm]

/-- A concrete pending delete action (setup for the C3 counterexample and
witnesses). -/
def deleteAction12 : Action :=
  { intent := Intent.delete_lead, entities := { lead_id := some 12 },
    confidence := 9/10, original_text := "delete lead #12" }

/-- Manager with user 1 awaiting confirmation of a delete action (setup for
the C3 counterexample). -/
def awaitingManager : Manager :=
  set_confirmation { : Manager} 1 deleteAction12 0

/-- **C3 counterexample.** The confirmation branch does not use the same
yes/no vocabulary as tier 3 of intent detection: `"відміна"` is in tier 3's
negative vocabulary (`detect` classifies it as CANCEL), but the orchestrator
branch does not recognise it — with a delete confirmation pending, the reply
`"відміна"` is re-evaluated as a fresh utterance and executed as a CANCEL
action, the pending action stays armed, the state stays
`awaiting_confirmation`, and no cancellation acknowledgment is returned. -/
theorem confirmation_vocab_counterexample :
    (detect "відміна" none).intent = Intent.cancel ∧
    negWordsDetect.any (fun w => substrB w (pyLower "відміна")) = true ∧
    negWordsOrch.any (fun w => substrB w (pyLower "відміна")) = false ∧
    stateOf (process_text awaitingManager 0 AIOutcome.fail "відміна" 1).2 1 =
      some "awaiting_confirmation" ∧
    (pendingOf (process_text awaitingManager 0 AIOutcome.fail "відміна" 1).2 1).map
      Option.isSome = some true ∧
    (process_text awaitingManager 0 AIOutcome.fail "відміна" 1).1.response =
      "Дію \x27cancel\x27 виконано." ∧
    (process_text awaitingManager 0 AIOutcome.fail "відміна" 1).1.response ≠
      "❌ Скасовано." :=
  ⟨by decide, by decide, by decide, by decide, by decide, by decide, by decide⟩

/-- **C3 (amended).** With a pending action armed, the confirmation branch
classifies the reply with its own yes/no lists — affirmative
так/yes/підтверджую/confirm/ок and negative ні/no/скасуй/cancel, a strict
subset of tier 3's vocabulary (tier 3 additionally recognises `"відміна"`
as negative): an affirmative reply executes the pending action in confirmed
mode and clears the pending state; a negative reply clears the pending
state and returns the cancellation acknowledgment with
`needs_confirmation = false` and no history append; any other reply is
evaluated as a fresh utterance while a pending action remains armed. -/
theorem confirmation_reply_classification
    (m : Manager) (now : Nat) (oracle : AIOutcome) (text : String) (uid : Nat)
    {a : Action}
    (hst : (get_context m uid now).1.state = "awaiting_confirmation")
    (hp : (get_context m uid now).1.confirmation_pending = some a) :
    (affirmWordsOrch.any (fun w => substrB w (pyLower text)) = true →
      process_text m now oracle text uid =
        execute_action (resolve_pronoun (get_context m uid now).2 text uid now).2
          now oracle a uid true ∧
      pendingOf (process_text m now oracle text uid).2 uid = some none ∧
      stateOf (process_text m now oracle text uid).2 uid = some "idle") ∧
    (affirmWordsOrch.any (fun w => substrB w (pyLower text)) = false →
     negWordsOrch.any (fun w => substrB w (pyLower text)) = true →
      (process_text m now oracle text uid).1 =
        { success := true, text := text, actionOut := ActionOut.intentOnly Intent.cancel,
          response := "❌ Скасовано.", needs_confirmation := false } ∧
      pendingOf (process_text m now oracle text uid).2 uid = some none ∧
      stateOf (process_text m now oracle text uid).2 uid = some "idle" ∧
      historyOf (process_text m now oracle text uid).2 uid =
        some (get_context m uid now).1.conversation_history) ∧
    (affirmWordsOrch.any (fun w => substrB w (pyLower text)) = false →
     negWordsOrch.any (fun w => substrB w (pyLower text)) = false →
      process_text m now oracle text uid =
        process_fresh (resolve_pronoun (get_context m uid now).2 text uid now).2
          now oracle text uid (get_context m uid now).1
          (resolve_pronoun (get_context m uid now).2 text uid now).1.1 ∧
      (pendingOf (process_text m now oracle text uid).2 uid).map Option.isSome =
        some true) := by
  have hself := ctxAt_get_context_self m uid now
  have hlive0 : ¬((get_context m uid now).1.last_seen_at +
      (get_context m uid now).2.context_ttl_minutes < now) := live_now
  have hres := ctxAt_resolve_pronoun text now hself hlive0
  have hlive1 : ¬(({ (get_context m uid now).1 with
      last_seen_at := now } : UserContext).last_seen_at +
      (resolve_pronoun (get_context m uid now).2 text uid now).2.context_ttl_minutes <
      now) := live_now
  refine ⟨?_, ?_, ?_⟩
  · intro haff
    have heq := process_text_awaiting_affirm m now oracle text uid hst hp haff
    have hps := pending_state_execute_true now oracle a hres hlive1
    exact ⟨heq, by rw [heq]; exact hps.1, by rw [heq]; exact hps.2⟩
  · intro haff hneg
    have heq := process_text_awaiting_neg m now oracle text uid hst hp haff hneg
    have hcl := ctxAt_clear_confirmation now hres hlive1
    refine ⟨by rw [heq], ?_, ?_, ?_⟩
    · rw [heq]
      exact pendingOf_clear_confirmation _ uid now
    · rw [heq]
      exact stateOf_clear_confirmation _ uid now
    · rw [heq]
      unfold historyOf
      unfold ctxAt at hcl
      rw [hcl]
      rfl
  · intro haff hneg
    have heq := process_text_awaiting_neither m now oracle text uid hst hp haff hneg
    refine ⟨heq, ?_⟩
    rw [heq]
    unfold process_fresh
    exact gate_pending_armed now oracle _ hres hlive1
      (by show Option.isSome (get_context m uid now).1.confirmation_pending = true
          rw [hp]
          rfl)

/-- Witness for C3 (amended) at concrete affirmative, negative and neutral
replies against a pending delete confirmation. -/
theorem confirmation_reply_classification_witness :
    pendingOf (process_text awaitingManager 0 AIOutcome.fail "так" 1).2 1 =
      some none ∧
    (process_text awaitingManager 0 AIOutcome.fail "ні" 1).1 =
      { success := true, text := "ні", actionOut := ActionOut.intentOnly Intent.cancel,
        response := "❌ Скасовано.", needs_confirmation := false } ∧
    (pendingOf (process_text awaitingManager 0 AIOutcome.fail "що далі" 1).2 1).map
      Option.isSome = some true :=
  ⟨((@confirmation_reply_classification awaitingManager 0 AIOutcome.fail "так" 1
      deleteAction12 (by decide) rfl).1 (by decide)).2.1,
   ((@confirmation_reply_classification awaitingManager 0 AIOutcome.fail "ні" 1
      deleteAction12 (by decide) rfl).2.1 (by decide) (by decide)).1,
   ((@confirmation_reply_classification awaitingManager 0 AIOutcome.fail "що далі" 1
      deleteAction12 (by decide) rfl).2.2 (by decide) (by decide)).2⟩

/-- The appended turn is always the last history entry of `add_turn`
(dropping from the front preserves the last element). -/
theorem add_turn_getLast (c : UserContext) (t : ConversationTurn) (now : Nat) :
    ((c.add_turn t now).conversation_history).getLast? = some t := by
  unfold UserContext.add_turn
  dsimp only
  by_cases h : (c.conversation_history ++ [t]).length > 10
  · rw [if_pos h]
    have hlen : (c.conversation_history ++ [t]).length -10 ≤
        c.conversation_history.length := by
      simp only [List.length_append, List.length_singleton]
      omega
    rw [List.drop_append_of_le_length hlen]
    exact List.getLast?_concat _
  · rw [if_neg h]
    exact List.getLast?_concat _

/-! ### C8: turn history recording -/

/-- **C8 counterexample.** A turn routed to the AI fallback is an executed,
non-confirmation turn (`needs_confirmation = false`), yet no
`ConversationTurn` is appended: after processing the unmatched input
`"qqq"` the history is still empty, contradicting the claim that fallback
turns are recorded. -/
theorem history_fallback_counterexample :
    (process_text { : Manager} 0 AIOutcome.fail "qqq" 1).1.needs_confirmation = false ∧
    (process_text { : Manager} 0 AIOutcome.fail "qqq" 1).1.actionOut =
      ActionOut.intentOnly Intent.unknown ∧
    historyOf (process_text { : Manager} 0 AIOutcome.fail "qqq" 1).2 1 = some [] :=
  ⟨by decide, by decide, by decide⟩

/-- **C8 (amended).** Turns executed through the known-intent path of
`_execute_action` (direct or confirmed) append a `ConversationTurn`
recording the input, the action and the response text before the result is
returned; turns routed to the AI fallback append nothing (the history is
returned unchanged); the history is capped at 10 entries with the oldest
dropped first. -/
theorem turn_history_recording (m : Manager) (uid : Nat) {c : UserContext}
    (now : Nat) (oracle : AIOutcome) (a : Action) (t : ConversationTurn)
    (hf : ctxAt m uid = some c)
    (hlive : ¬(c.last_seen_at + m.context_ttl_minutes < now)) :
    (¬(a.intent = Intent.unknown) →
      (historyOf (execute_action m now oracle a uid false).2 uid).map List.getLast? =
        some (some {
          timestamp := now, user_input := a.original_text, action := a,
          bot_response := (execute_action m now oracle a uid false).1.response })) ∧
    (¬(a.intent = Intent.unknown) →
      (historyOf (execute_action m now oracle a uid true).2 uid).map List.getLast? =
        some (some {
          timestamp := now, user_input := a.original_text, action := a,
          bot_response := (execute_action m now oracle a uid true).1.response })) ∧
    (a.intent = Intent.unknown →
      historyOf (execute_action m now oracle a uid false).2 uid =
        some c.conversation_history) ∧
    (c.conversation_history.length ≤ 10 →
      (c.add_turn t now).conversation_history.length ≤ 10) ∧
    (c.conversation_history.length < 10 →
      (c.add_turn t now).conversation_history = c.conversation_history ++ [t]) ∧
    (c.conversation_history.length = 10 →
      (c.add_turn t now).conversation_history = c.conversation_history.tail ++ [t]) := by
  refine ⟨?_, ?_, ?_, ?_, ?_, ?_⟩
  · intro hni
    obtain ⟨hctx, hresp, _, _⟩ := ctxAt_execute_false now oracle a hf hlive hni
    unfold historyOf
    unfold ctxAt at hctx
    rw [hctx, hresp]
    dsimp only [Option.map]
    rw [add_turn_getLast]
  · intro hni
    obtain ⟨hctx, hresp, _, _⟩ := ctxAt_execute_true now oracle a hf hlive hni
    unfold historyOf
    unfold ctxAt at hctx
    rw [hctx, hresp]
    dsimp only [Option.map]
    rw [add_turn_getLast]
  · intro hu
    have hctx := ctxAt_execute_false_unknown now oracle a hf hlive hu
    unfold historyOf
    unfold ctxAt at hctx
    rw [hctx]
    rfl
  · intro hlen
    unfold UserContext.add_turn
    dsimp only
    by_cases h : (c.conversation_history ++ [t]).length > 10
    · rw [if_pos h]
      rw [List.length_drop]
      omega
    · rw [if_neg h]
      omega
  · intro hlen
    unfold UserContext.add_turn
    dsimp only
    rw [if_neg (by simp only [List.length_append, List.length_singleton]; omega)]
  · intro hlen
    unfold UserContext.add_turn
    dsimp only
    rw [if_pos (by simp only [List.length_append, List.length_singleton]; omega)]
    have h1 : (c.conversation_history ++ [t]).length - 10 = 1 := by
      simp only [List.length_append, List.length_singleton]
      omega
    rw [h1, List.drop_append_of_le_length (by omega), List.drop_one]

/-- Witness for C8 at a concrete executed CONFIRM turn. -/
theorem turn_history_recording_witness :
    (historyOf (execute_action (get_context { : Manager} 1 0).2 0 AIOutcome.fail
        { intent := Intent.confirm, entities := {}, original_text := "yes" }
        1 false).2 1).map List.getLast? =
      some (some {
        timestamp := 0, user_input := "yes",
        action := { intent := Intent.confirm, entities := {}, original_text := "yes" },
        bot_response := (execute_action (get_context { : Manager} 1 0).2 0 AIOutcome.fail
          { intent := Intent.confirm, entities := {}, original_text := "yes" }
          1 false).1.response }) :=
  (turn_history_recording (get_context { : Manager} 1 0).2 1 0 AIOutcome.fail
    { intent := Intent.confirm, entities := {}, original_text := "yes" }
    { timestamp := 0, user_input := "x",
      action := { intent := Intent.confirm, entities := {}, original_text := "x" },
      bot_response := "r" }
    (ctxAt_get_context_self { : Manager} 1 0) live_now).1 (by decide)

/-! ### C9: last-referenced-lead update -/

/-- Through the confirmation gate, a truthy action id updates the stored
last-referenced id immediately — in the confirmation branch and in the
direct-execution branch alike — while the stored lead *name* is never
touched. -/
theorem gate_lead_update {m : Manager} {uid : Nat} {c : UserContext}
    (now : Nat) (oracle : AIOutcome) (act : Action)
    (hf : ctxAt m uid = some c)
    (hlive : ¬(c.last_seen_at + m.context_ttl_minutes < now))
    (ht : truthyNat act.entities.lead_id = true) :
    (ctxAt (confirmation_gate m now oracle uid act).2 uid).map
      (fun x => (x.last_lead_id, x.last_lead_name)) =
      some (some (act.entities.lead_id.getD 0), c.last_lead_name) := by
  unfold confirmation_gate
  dsimp only
  rw [if_pos ht]
  have hup := ctxAt_update_lead (act.entities.lead_id.getD 0) now hf hlive
  by_cases hn : needs_confirmation_check act = true
  · rw [if_pos hn]
    dsimp only
    have hset := ctxAt_set_confirmation act now hup live_now
    rw [hset]
    rfl
  · rw [if_neg hn]
    by_cases hu : act.intent = Intent.unknown
    · have h := ctxAt_execute_false_unknown now oracle act hup live_now hu
      rw [h]
      rfl
    · have h := (ctxAt_execute_false now oracle act hup live_now hu).1
      rw [h, if_pos ht]
      rfl

/-- **C9 counterexample.** For the input `"додай ліда Іван #7"` the
extracted entities carry both the identifier 7 and the name `"Іван"`, yet
after `process_text` the context's last-referenced identifier is 7 while
the last-referenced name is still unset — `process_text` calls
`update_context_lead` without the name, so the name is never updated even
when it is known. -/
theorem context_lead_name_counterexample :
    (extract_entities "додай ліда Іван #7").lead_id = some 7 ∧
    (extract_entities "додай ліда Іван #7").lead_name = some "Іван" ∧
    (ctxAt (process_text { : Manager} 0 AIOutcome.fail "додай ліда Іван #7" 1).2 1).map
      (fun x => (x.last_lead_id, x.last_lead_name)) = some (some 7, none) ∧
    (process_text { : Manager} 0 AIOutcome.fail "додай ліда Іван #7" 1).1.needs_confirmation =
      true :=
  ⟨by decide, by decide, by decide, by decide⟩

/-- **C9 (amended).** In every `process_text` call with no confirmation
pending whose detected action carries a truthy identifier (extracted,
borrowed from context, or resolved from a back-reference), the context's
last-referenced identifier is updated immediately, before the confirmation
gate — so the update happens whether or not the action then requires
confirmation; the last-referenced *name*, however, is never updated by
`process_text` (`update_context_lead` is called without it). -/
theorem lead_id_updated_before_gate (m : Manager) (now : Nat)
    (oracle : AIOutcome) (text : String) (uid : Nat)
    (hnp : ¬((get_context m uid now).1.state = "awaiting_confirmation" ∧
             (get_context m uid now).1.confirmation_pending.isSome = true))
    (ht : truthyNat (detected_action m now text uid).entities.lead_id = true) :
    (ctxAt (process_text m now oracle text uid).2 uid).map
      (fun x => (x.last_lead_id, x.last_lead_name)) =
      some (some ((detected_action m now text uid).entities.lead_id.getD 0),
            (get_context m uid now).1.last_lead_name) := by
  have hself := ctxAt_get_context_self m uid now
  have hlive0 : ¬((get_context m uid now).1.last_seen_at +
      (get_context m uid now).2.context_ttl_minutes < now) := live_now
  have hres := ctxAt_resolve_pronoun text now hself hlive0
  have hlive1 : ¬(({ (get_context m uid now).1 with
      last_seen_at := now } : UserContext).last_seen_at +
      (resolve_pronoun (get_context m uid now).2 text uid now).2.context_ttl_minutes <
      now) := live_now
  rw [process_text_eq_fresh m now oracle text uid hnp]
  exact gate_lead_update now oracle _ hres hlive1 ht

/-- Witness for C9 (amended) at the input `"delete lead #12"`. -/
theorem lead_id_updated_before_gate_witness :
    (ctxAt (process_text { : Manager} 0 AIOutcome.fail "delete lead #12" 3).2 3).map
      (fun x => (x.last_lead_id, x.last_lead_name)) = some (some 12, none) :=
  lead_id_updated_before_gate { : Manager} 0 AIOutcome.fail "delete lead #12" 3
    (by decide) (by decide)

/-! ### C10: a stray affirmative with nothing pending executes as CONFIRM -/

/-- When no pattern entry hits tier 1 or tier 2 and an affirmative token is
present, `detect` returns the bare CONFIRM action at confidence 0.95. -/
theorem detect_affirm_eq (text : String) (ctx : Option UserContext)
    (h1 : PATTERNS.all (fun p => !phraseHit p.2 (pyLower text)) = true)
    (h2 : PATTERNS.all (fun p => !kwVerbHit p.2 (pyLower text)) = true)
    (h3 : affirmWordsDetect.any (fun w => substrB w (pyLower text)) = true) :
    detect text ctx =
      { intent := Intent.confirm, entities := {}, confidence := 19/20,
        original_text := text } := by
  have hnone1 : ∀ p ∈ PATTERNS, phraseHit p.2 (pyLower text) = false := fun p hp => by
    simpa using List.all_eq_true.mp h1 p hp
  have hnone2 : ∀ p ∈ PATTERNS, kwVerbHit p.2 (pyLower text) = false := fun p hp => by
    simpa using List.all_eq_true.mp h2 p hp
  unfold detect
  dsimp only
  rw [find?_eq_none_of_all hnone1, find?_eq_none_of_all hnone2]
  dsimp only
  rw [if_pos h3]

/-- An action with CONFIRM intent falls through to the default response
template of `_build_action_response`. -/
theorem build_confirm_default (a : Action) (ctx : UserContext) (confirmed : Bool)
    (h : a.intent = Intent.confirm) :
    build_action_response a ctx confirmed =
      { type := "text", text := "Дію \x27confirm\x27 виконано." } := by
  unfold build_action_response
  rw [h]
  rfl

/-- CONFIRM is not a mutating intent, so it needs no confirmation. -/
theorem confirm_not_gated (a : Action) (h : a.intent = Intent.confirm) :
    needs_confirmation_check a = false := by
  unfold needs_confirmation_check
  rw [h]
  rfl

/-- **C10.** For every input that matches no tier-1 phrase and no
tier-2 keyword+verb pair but contains an affirmative token, while the
user's context has nothing pending, `process_text` classifies the input as
a CONFIRM action at confidence 0.95 and executes it immediately like any
other non-mutating turn: `success = true`, `needs_confirmation = false`,
the generic templated "action executed" response, and the turn is appended
to the history — a stray "yes" with nothing pending is never rejected. -/
theorem stray_affirmative_executed (m : Manager) (now : Nat) (oracle : AIOutcome)
    (text : String) (uid : Nat)
    (h1 : PATTERNS.all (fun p => !phraseHit p.2 (pyLower text)) = true)
    (h2 : PATTERNS.all (fun p => !kwVerbHit p.2 (pyLower text)) = true)
    (h3 : affirmWordsDetect.any (fun w => substrB w (pyLower text)) = true)
    (hnp : ¬((get_context m uid now).1.state = "awaiting_confirmation" ∧
             (get_context m uid now).1.confirmation_pending.isSome = true)) :
    (detect text (some (get_context m uid now).1)).intent = Intent.confirm ∧
    (detect text (some (get_context m uid now).1)).confidence = 19/20 ∧
    (process_text m now oracle text uid).1.success = true ∧
    (process_text m now oracle text uid).1.needs_confirmation = false ∧
    (process_text m now oracle text uid).1.response = "Дію \x27confirm\x27 виконано." ∧
    (historyOf (process_text m now oracle text uid).2 uid).map
      (fun h => h.getLast?.map (fun t => (t.user_input, t.bot_response))) =
      some (some (text, "Дію \x27confirm\x27 виконано.")) := by
  have hdet := detect_affirm_eq text (some ((get_context m uid now).1)) h1 h2 h3
  have hself := ctxAt_get_context_self m uid now
  have hlive0 : ¬((get_context m uid now).1.last_seen_at +
      (get_context m uid now).2.context_ttl_minutes < now) := live_now
  have hres := ctxAt_resolve_pronoun text now hself hlive0
  have hlive1 : ¬(({ (get_context m uid now).1 with
      last_seen_at := now } : UserContext).last_seen_at +
      (resolve_pronoun (get_context m uid now).2 text uid now).2.context_ttl_minutes <
      now) := live_now
  have hgoal : process_text m now oracle text uid =
      process_fresh (resolve_pronoun (get_context m uid now).2 text uid now).2
        now oracle text uid (get_context m uid now).1
        (resolve_pronoun (get_context m uid now).2 text uid now).1.1 :=
    process_text_eq_fresh m now oracle text uid hnp
  set rid := (resolve_pronoun (get_context m uid now).2 text uid now).1.1 with hrid
  have hact : process_fresh (resolve_pronoun (get_context m uid now).2 text uid now).2
      now oracle text uid (get_context m uid now).1 rid =
      confirmation_gate (resolve_pronoun (get_context m uid now).2 text uid now).2
        now oracle uid (adopt_rid (detect text (some (get_context m uid now).1)) rid) :=
    rfl
  set aAd := adopt_rid (detect text (some (get_context m uid now).1)) rid with haad
  have hint : aAd.intent = Intent.confirm := by
    rw [haad, adopt_rid_intent, hdet]
  have horig : aAd.original_text = text := by
    rw [haad, adopt_rid_original_text, hdet]
  have hni : ¬(aAd.intent = Intent.unknown) := by
    rw [hint]
    decide
  have hneeds := confirm_not_gated aAd hint
  have hgate : confirmation_gate (resolve_pronoun (get_context m uid now).2 text uid now).2
      now oracle uid aAd =
      execute_action
        (if truthyNat aAd.entities.lead_id then
          update_context_lead (resolve_pronoun (get_context m uid now).2 text uid now).2
            uid (aAd.entities.lead_id.getD 0) none now
         else (resolve_pronoun (get_context m uid now).2 text uid now).2)
        now oracle aAd uid false :=
    confirmation_gate_direct _ now oracle uid hneeds
  rw [hgoal, hact, hgate]
  by_cases ht : truthyNat aAd.entities.lead_id = true
  · rw [if_pos ht]
    have hup := ctxAt_update_lead (aAd.entities.lead_id.getD 0) now hres hlive1
    obtain ⟨hctx, hresp, hnc, hsucc⟩ := ctxAt_execute_false now oracle aAd hup live_now hni
    refine ⟨by rw [hdet], by rw [hdet], hsucc, hnc, ?_, ?_⟩
    · rw [hresp, build_confirm_default aAd _ false hint]
    · unfold historyOf
      unfold ctxAt at hctx
      rw [hctx]
      dsimp only [Option.map]
      rw [add_turn_getLast]
      dsimp only [Option.map]
      rw [horig, build_confirm_default aAd _ false hint]
  · rw [if_neg ht]
    obtain ⟨hctx, hresp, hnc, hsucc⟩ := ctxAt_execute_false now oracle aAd hres hlive1 hni
    refine ⟨by rw [hdet], by rw [hdet], hsucc, hnc, ?_, ?_⟩
    · rw [hresp, build_confirm_default aAd _ false hint]
    · unfold historyOf
      unfold ctxAt at hctx
      rw [hctx]
      dsimp only [Option.map]
      rw [add_turn_getLast]
      dsimp only [Option.map]
      rw [horig, build_confirm_default aAd _ false hint]

/-- Witness for C10 at the input `"yes"` against the empty manager. -/
theorem stray_affirmative_executed_witness :
    (process_text { : Manager} 0 AIOutcome.fail "yes" 1).1.response =
      "Дію \x27confirm\x27 виконано." ∧
    (process_text { : Manager} 0 AIOutcome.fail "yes" 1).1.needs_confirmation = false :=
  ⟨(stray_affirmative_executed { : Manager} 0 AIOutcome.fail "yes" 1
      (by decide) (by decide) (by decide) (by decide)).2.2.2.2.1,
   (stray_affirmative_executed { : Manager} 0 AIOutcome.fail "yes" 1
      (by decide) (by decide) (by decide) (by decide)).2.2.2.1⟩

/-- Witness for C5: user 1 untouched since time 0 with the default
120-minute TTL is evicted at time 121 by user 2's access, and user 1's next
access starts a brand-new idle context. -/
theorem ttl_sweep_evicts_stale_witness :
    ctxAt (get_context (get_context { : Manager} 1 0).2 2 121).2 1 = none ∧
    (get_context (get_context { : Manager} 1 0).2 1 121).1 = freshContext 1 121 :=
  ⟨(ttl_sweep_evicts_stale (get_context { : Manager} 1 0).2 121 1 2 5
      AIOutcome.fail "hi" none
      { intent := Intent.confirm, entities := {}, original_text := "x" }
      (by decide) (by decide)).2.1,
   (ttl_sweep_evicts_stale (get_context { : Manager} 1 0).2 121 1 2 5
      AIOutcome.fail "hi" none
      { intent := Intent.confirm, entities := {}, original_text := "x" }
      (by decide) (by decide)).2.2.2.2.2.2.1⟩

end CRM
